import Mathlib

/-!
Verification of the simulation core of the Pyoro-style Pebble game
(`birdbeansgame.c`, richer variant with angels / pink beans / step queue).

The C code is shallowly embedded: C `float` arithmetic is modelled by exact
rationals (`ℚ`), C `int` by `ℤ`, fixed arrays by lists of the corresponding
length, and the mutable globals (`s_game`, `s_pending_step_dir`,
`s_pending_step_count`, `s_high_scores`, `s_last_game_score`) by one state
record `Sys` threaded through every operation.  `rand()` results consumed by
`spawn_bean` are supplied as explicit oracle values.  Rendering, bitmap and
persistence plumbing is outside the simulation core and is not modelled.
-/

/- The Batteries rational-number operations are `@[irreducible]`, which
blocks `decide`-style evaluation of concrete game states; restore the
default reducibility so that concrete runs of the simulation reduce. -/
set_option allowUnsafeReducibility true in
attribute [semireducible] Rat.mul Rat.add Rat.inv Rat.sub Rat.div Rat.neg

namespace BirdBeans

/-! ## Game constants (from the `#define` block) -/

def GAME_WIDTH : ℤ := 20
def GAME_HEIGHT : ℚ := 20
def PYORO_SIZE : ℚ := 2
def BEAN_SIZE : ℚ := 2
def TONGUE_WIDTH : ℚ := 2
def TONGUE_SPEED : ℚ := 15
def BEAN_SPEED : ℚ := 9/5
def PYORO_SINGLE_STEP : ℚ := 1/4
def PYORO_PENDING_STEPS_MAX : ℤ := 60
def BEAN_SPAWN_FREQUENCY : ℚ := 2
def SPEED_ACCELERATION : ℚ := 1/100
def DEATH_DELAY : ℚ := 1
def ANGEL_SPEED : ℚ := 35
def PYORO_VISUAL_SIZE : ℚ := 5
def NUM_HIGH_SCORES : ℕ := 10
def HIGH_SCORE_EMPTY : ℤ := -1

/-- C cast `(int)q` on a float: truncation toward zero. -/
def cint (q : ℚ) : ℤ := Int.tdiv q.num (q.den : ℤ)

/-! ## Data model (the C structs) -/

structure Tongue where
  active : Bool
  x : ℚ
  y : ℚ
  direction : ℤ
  going_back : Bool
  caught_bean : Bool
  deriving Repr, DecidableEq

structure Pyoro where
  x : ℚ
  y : ℚ
  direction : ℤ  -- 1 = right, -1 = left
  moving : Bool
  dead : Bool
  button_held : Bool
  tongue : Tongue
  deriving Repr, DecidableEq

inductive BeanType where
  | green
  | pink
  deriving Repr, DecidableEq

structure Bean where
  x : ℚ
  y : ℚ
  speed : ℚ
  active : Bool
  caught : Bool
  type : BeanType
  deriving Repr, DecidableEq

structure Block where
  exists_ : Bool
  is_repairing : Bool
  deriving Repr, DecidableEq

structure Angel where
  x : ℚ
  y : ℚ
  active : Bool
  target_block_index : ℤ
  going_up : Bool
  deriving Repr, DecidableEq

inductive GameState where
  | menu
  | playing
  | game_over
  deriving Repr, DecidableEq

structure Game where
  state : GameState
  pyoro : Pyoro
  beans : List Bean     -- 5 slots
  blocks : List Block   -- GAME_WIDTH slots
  angel : Angel
  score : ℤ
  game_speed : ℚ
  bean_spawn_timer : ℚ
  death_timer : ℚ
  game_paused : Bool
  deriving Repr, DecidableEq

/-- The full mutable state: the `s_game` struct plus the other file-scope
globals of the simulation core. -/
structure Sys where
  game : Game
  pending_step_dir : ℤ
  pending_step_count : ℤ
  high_scores : List ℤ  -- NUM_HIGH_SCORES slots
  last_game_score : ℤ
  deriving Repr, DecidableEq

/-- Default bean record, used only as the `getD`/`ite` fallback for list
access that in C is always in bounds. -/
def defBean : Bean :=
  { x := 0, y := 0, speed := 0, active := false, caught := false, type := .green }

/-- Default block record (fallback for list access). -/
def defBlock : Block := { exists_ := false, is_repairing := false }

/-- Oracle for the `rand()` calls inside one `spawn_bean` invocation:
`rx` feeds `rand() % GAME_WIDTH`, `rs` feeds `rand() % 100`,
`rt` feeds `rand() % 5`. -/
structure SpawnRand where
  rx : ℕ
  rs : ℕ
  rt : ℕ
  deriving Repr, DecidableEq

/-- First index of the list satisfying `p` (the C linear-scan-with-break
pattern). -/
def findIdxA {α : Type} (p : α → Bool) : List α → Option ℕ
  | [] => none
  | a :: as => if p a then some 0 else (findIdxA p as).map (· + 1)

/-- Indexed read with a fallback (C array access `a[i]`; the fallback is
never reached on the fixed-size arrays of the game state). -/
def getA {α : Type} : List α → ℕ → α → α
  | [], _, d => d
  | a :: _, 0, _ => a
  | _ :: as, i + 1, d => getA as i d

/-! ## Pure helpers of the core -/

/-- `check_collision`: axis-aligned box overlap test (centres + extents). -/
def check_collision (x1 y1 w1 h1 x2 y2 w2 h2 : ℚ) : Bool :=
  decide ((x1 - w1/2 < x2 + w2/2) ∧ (x1 + w1/2 > x2 - w2/2) ∧
          (y1 - h1/2 < y2 + h2/2) ∧ (y1 + h1/2 > y2 - h2/2))

/-- The column scan of `apply_pyoro_step`: true iff some column `i` with
`block_left ≤ i ≤ block_right`, `0 ≤ i < GAME_WIDTH` has no existing block
(the C loop that `return false`s on a hole). -/
def hole_under (blocks : List Block) (block_left block_right : ℤ) : Bool :=
  (List.range 20).any fun i =>
    decide (block_left ≤ (i : ℤ) ∧ (i : ℤ) ≤ block_right) &&
      !(getA blocks i defBlock).exists_

/-- `apply_pyoro_step`: one queued micro-step.  Clamps the candidate to
stage bounds, rejects it if a spanned column lacks a block.  (The C bool
return value is ignored at the call site, so the embedding returns the
updated game only.) -/
def apply_pyoro_step (step_dir : ℤ) (g : Game) : Game :=
  let new_x0 := g.pyoro.x + (step_dir : ℚ) * PYORO_SINGLE_STEP
  let new_x :=
    if new_x0 < PYORO_SIZE / 2 then PYORO_SIZE / 2
    else if new_x0 > (GAME_WIDTH : ℚ) - PYORO_SIZE / 2 then (GAME_WIDTH : ℚ) - PYORO_SIZE / 2
    else new_x0
  let block_left := cint (new_x - PYORO_SIZE / 2)
  let block_right := cint (new_x + PYORO_SIZE / 2)
  if hole_under g.blocks block_left block_right then g
  else { g with pyoro := { g.pyoro with x := new_x } }

/-- `insert_high_score`: sorted-descending insert into the fixed 10-slot
table; first slot that is empty or strictly beaten receives the score, the
tail shifts down one, the last entry falls off.  (The `save_high_scores`
persistence call is external I/O and not modelled.) -/
def insert_high_score (score : ℤ) (t : List ℤ) : List ℤ :=
  match findIdxA (fun v => v == HIGH_SCORE_EMPTY || score > v) t with
  | none => t
  | some insert_at =>
      (List.range NUM_HIGH_SCORES).map fun j =>
        if j < insert_at then getA t j 0
        else if j = insert_at then score
        else getA t (j - 1) 0

/-- `find_destroyed_block`: first destroyed, non-repairing block index, or
`-1`. -/
def find_destroyed_block (blocks : List Block) : ℤ :=
  match findIdxA (fun b => !b.exists_ && !b.is_repairing) blocks with
  | some i => (i : ℤ)
  | none => -1

/-- `spawn_angel(block_index)`: guarded activation of the singleton repair
angel. -/
def spawn_angel (block_index : ℤ) (g : Game) : Game :=
  if block_index < 0 ∨ block_index ≥ GAME_WIDTH then g
  else if (getA g.blocks block_index.toNat defBlock).exists_ = true ∨
          (getA g.blocks block_index.toNat defBlock).is_repairing = true then g
  else if g.angel.active = true then g
  else
    let nblk := { (getA g.blocks block_index.toNat defBlock) with is_repairing := true }
    { g with
      angel := { x := (block_index : ℚ) + 1/2, y := 0, active := true,
                 target_block_index := block_index, going_up := false },
      blocks := g.blocks.set block_index.toNat nblk }

/-- `spawn_bean`: claim the first inactive bean slot (silent no-op when the
pool is full); pink with probability 2/5 only when a destroyed
non-repairing block exists. -/
def spawn_bean (o : SpawnRand) (g : Game) : Game :=
  match findIdxA (fun b => !b.active) g.beans with
  | none => g
  | some i =>
      let destroyed_block := find_destroyed_block g.blocks
      let ty : BeanType :=
        if destroyed_block ≥ 0 ∧ o.rt % 5 < 2 then .pink else .green
      let nb : Bean :=
        { x := ((o.rx % 20 : ℕ) : ℚ) + 1/2, y := 0,
          speed := ((o.rs % 100 : ℕ) : ℚ) / 100 * 1 + 1/2,
          active := true, caught := false, type := ty }
      { g with beans := g.beans.set i nb }

/-- Height-band score award computed at retraction completion
(lines 388–397: a cascade of strict `<` tests against fixed fractions of
`GAME_HEIGHT`, baseline 10). -/
def score_for_height (y : ℚ) : ℤ :=
  if y < GAME_HEIGHT * (2/10) then 1000
  else if y < GAME_HEIGHT * (4/10) then 300
  else if y < GAME_HEIGHT * (6/10) then 100
  else if y < GAME_HEIGHT * (8/10) then 50
  else 10

/-! ## Tongue update (lines 352–435) -/

/-- Predicate for an active caught bean (the slaving / completion scans). -/
def caughtActive (b : Bean) : Bool := b.active && b.caught

/-- Index of the first active caught bean, if any. -/
def firstCaughtIdx (bs : List Bean) : Option ℕ := findIdxA caughtActive bs

/-- Slave the first active caught bean to the tongue tip (lines 361–367). -/
def slave_bean (tx ty : ℚ) (bs : List Bean) : List Bean :=
  match firstCaughtIdx bs with
  | some i => bs.set i { (getA bs i defBean) with x := tx, y := ty }
  | none => bs

/-- Retraction-completion processing for a caught bean (lines 373–404):
pink beans try to spawn an angel, the height-band award is added at the
completed tip height `ty`, the bean is removed. -/
def complete_catch (ty : ℚ) (g : Game) : Game :=
  match firstCaughtIdx g.beans with
  | none => g
  | some i =>
      let b := getA g.beans i defBean
      let g1 :=
        if b.type = BeanType.pink then
          let destroyed_block := find_destroyed_block g.blocks
          if destroyed_block ≥ 0 then spawn_angel destroyed_block g else g
        else g
      { g1 with
        score := g1.score + score_for_height ty,
        beans := g1.beans.set i { b with active := false } }

/-- The retracting arm of the tongue update (lines 354–407): move the tip
back, slave a caught bean to it, and on arrival at the mouth process the
catch and deactivate the tongue. -/
def tongue_retract (dt : ℚ) (g : Game) : Game :=
  let retract_speed := TONGUE_SPEED * 2 * dt
  let tx := g.pyoro.tongue.x - (g.pyoro.tongue.direction : ℚ) * retract_speed
  let ty := g.pyoro.tongue.y + retract_speed
  let g1 := { g with pyoro := { g.pyoro with tongue := { g.pyoro.tongue with x := tx, y := ty } } }
  let g2 :=
    if g.pyoro.tongue.caught_bean = true then { g1 with beans := slave_bean tx ty g1.beans }
    else g1
  if ty ≥ g.pyoro.y then
    let g3 := if g.pyoro.tongue.caught_bean = true then complete_catch ty g2 else g2
    { g3 with pyoro := { g3.pyoro with tongue := { g3.pyoro.tongue with active := false } } }
  else g2

/-- The catch test of the extending tongue: an active uncaught bean
overlapping the tip (line 414). -/
def catchPred (tx ty : ℚ) (b : Bean) : Bool :=
  b.active && !b.caught &&
    check_collision tx ty TONGUE_WIDTH TONGUE_WIDTH b.x b.y BEAN_SIZE BEAN_SIZE

/-- The extending arm of the tongue update (lines 409–433): move the tip
out diagonally, catch the first overlapping active uncaught bean, and flip
to retraction when the tip leaves the play field. -/
def tongue_extend (dt : ℚ) (g : Game) : Game :=
  let extend_speed := TONGUE_SPEED * dt
  let tx := g.pyoro.tongue.x + (g.pyoro.tongue.direction : ℚ) * extend_speed
  let ty := g.pyoro.tongue.y - extend_speed
  let g1 := { g with pyoro := { g.pyoro with tongue := { g.pyoro.tongue with x := tx, y := ty } } }
  let g2 :=
    match findIdxA (catchPred tx ty) g1.beans with
    | some i =>
        { g1 with
          beans := g1.beans.set i { (getA g1.beans i defBean) with caught := true },
          pyoro := { g1.pyoro with tongue :=
            { g1.pyoro.tongue with caught_bean := true, going_back := true } } }
    | none => g1
  if tx < 0 ∨ tx > (GAME_WIDTH : ℚ) ∨ ty < 0 then
    { g2 with pyoro := { g2.pyoro with tongue := { g2.pyoro.tongue with going_back := true } } }
  else g2

/-- Tongue state machine for one tick; `dt` is the scaled delta
(`delta_time * game_speed`). -/
def update_tongue (dt : ℚ) (g : Game) : Game :=
  if g.pyoro.tongue.active = false then g
  else if g.pyoro.tongue.going_back = true then tongue_retract dt g
  else tongue_extend dt g

/-! ## Bean update loop (lines 437–466) -/

/-- One pass over the bean indices with the C `break`-on-death semantics:
a bean that kills Pyoro stops all further bean processing in this tick. -/
def update_beans_list (dt : ℚ) : List ℕ → Game → Game
  | [], g => g
  | i :: rest, g =>
      let b := getA g.beans i defBean
      if b.active && !b.caught then
        let y1 := b.y + BEAN_SPEED * b.speed * dt * g.game_speed
        if !g.pyoro.dead && !g.pyoro.tongue.active &&
            check_collision g.pyoro.x g.pyoro.y PYORO_SIZE PYORO_SIZE b.x y1 BEAN_SIZE BEAN_SIZE then
          -- death: move the bean, set flag and timer, break out of the loop
          { g with beans := g.beans.set i { b with y := y1 },
                   pyoro := { g.pyoro with dead := true }, death_timer := DEATH_DELAY }
        else if y1 ≥ GAME_HEIGHT - 1 then
          -- ground arrival: the bean is removed and destroys the block
          -- under it when the column is in range and the block exists
          if 0 ≤ cint b.x ∧ cint b.x < GAME_WIDTH ∧
              (getA g.blocks (cint b.x).toNat defBlock).exists_ = true then
            update_beans_list dt rest
              { g with beans := g.beans.set i { b with y := y1, active := false },
                       blocks := g.blocks.set (cint b.x).toNat
                         { (getA g.blocks (cint b.x).toNat defBlock) with exists_ := false } }
          else
            update_beans_list dt rest
              { g with beans := g.beans.set i { b with y := y1, active := false } }
        else
          update_beans_list dt rest { g with beans := g.beans.set i { b with y := y1 } }
      else update_beans_list dt rest g

/-- The bean phase of one tick. -/
def update_beans (dt : ℚ) (g : Game) : Game :=
  update_beans_list dt [0, 1, 2, 3, 4] g

/-! ## Angel update (lines 469–494) -/

def update_angel (dt : ℚ) (g : Game) : Game :=
  if g.angel.active = false then g
  else if g.angel.going_up = false then
    let y1 := g.angel.y + ANGEL_SPEED * dt
    if y1 ≥ GAME_HEIGHT - 1 then
      let block_idx := g.angel.target_block_index
      let g1 :=
        if 0 ≤ block_idx ∧ block_idx < GAME_WIDTH then
          let nblk : Block := { exists_ := true, is_repairing := false }
          { g with blocks := g.blocks.set block_idx.toNat nblk }
        else g
      { g1 with angel := { g1.angel with y := y1, going_up := true } }
    else { g with angel := { g.angel with y := y1 } }
  else
    let y1 := g.angel.y - ANGEL_SPEED * dt
    if y1 < 0 then { g with angel := { g.angel with y := y1, active := false } }
    else { g with angel := { g.angel with y := y1 } }

/-! ## The tick: `update_game(delta_time)` (lines 311–525) -/

/-- Death-timer handling (lines 317–327): while dead, count the raw delta
down; at zero record the score and go to the game-over screen. -/
def death_phase (delta_time : ℚ) (s : Sys) : Sys :=
  let timer := s.game.death_timer - delta_time
  if timer ≤ 0 then
    { s with
      game := { s.game with death_timer := timer, state := GameState.game_over },
      last_game_score := s.game.score,
      high_scores := insert_high_score s.game.score s.high_scores }
  else { s with game := { s.game with death_timer := timer } }

/-- The bean-spawn-timer phase (lines 497–501): accumulate the scaled
delta; at the (speed-shrinking) threshold spawn one bean and reset. -/
def spawn_phase (dt : ℚ) (o : SpawnRand) (g4 : Game) : Game :=
  let timer := g4.bean_spawn_timer + dt
  if timer ≥ BEAN_SPAWN_FREQUENCY / g4.game_speed then
    { (spawn_bean o g4) with bean_spawn_timer := 0 }
  else { g4 with bean_spawn_timer := timer }

/-- The alive-and-playing path of one tick: speed ramp, step-queue drain,
tongue, beans, angel, bean-spawn timer, in the C statement order. -/
def tick_main (delta_time : ℚ) (o : SpawnRand) (s : Sys) : Sys :=
    let dt := delta_time * s.game.game_speed
    let g0 := { s.game with game_speed := s.game.game_speed + dt * SPEED_ACCELERATION }
    -- step queue drain (lines 334-344)
    let stepRes : Game × ℤ × ℤ :=
      if g0.pyoro.tongue.active = true then (g0, 0, 0)
      else if s.pending_step_count > 0 ∧ s.pending_step_dir ≠ 0 then
        let g' := apply_pyoro_step s.pending_step_dir g0
        let c' := s.pending_step_count - 1
        (g', if c' ≤ 0 then 0 else s.pending_step_dir, c')
      else (g0, s.pending_step_dir, s.pending_step_count)
    let g1 := stepRes.1
    let g2 := update_tongue dt g1
    let g3 := update_beans dt g2
    let g4 := update_angel dt g3
    let g5 := spawn_phase dt o g4
    { s with game := g5, pending_step_dir := stepRes.2.1, pending_step_count := stepRes.2.2 }

/-- One simulation tick.  `delta_time` is the raw delta in seconds, `o`
supplies the `rand()` values for an eventual bean spawn. -/
def update_game (delta_time : ℚ) (o : SpawnRand) (s : Sys) : Sys :=
  if s.game.state ≠ GameState.playing ∨ s.game.game_paused = true then s
  else if s.game.pyoro.dead = true then death_phase delta_time s
  else tick_main delta_time o s

/-! ## Input handlers (lines 935–1027) -/

/-- `init_game`: the fields the C function assigns (everything else keeps
its previous value, as in C). -/
def init_game (s : Sys) : Sys :=
  { s with game :=
    { s.game with
      state := GameState.menu, score := 0, game_speed := 1,
      bean_spawn_timer := 0, death_timer := 0, game_paused := false,
      pyoro := { s.game.pyoro with
        x := (GAME_WIDTH : ℚ) / 2, y := GAME_HEIGHT - 2, direction := 1,
        moving := false, dead := false, button_held := false,
        tongue := { s.game.pyoro.tongue with active := false } },
      blocks := List.replicate 20 { exists_ := true, is_repairing := false },
      beans := s.game.beans.map fun b => { b with active := false, type := .green },
      angel := { s.game.angel with active := false } } }

/-- `reset_game`: `init_game` then start playing with a clear step queue. -/
def reset_game (s : Sys) : Sys :=
  let s1 := init_game s
  { s1 with
    game := { s1.game with state := GameState.playing },
    pending_step_dir := 0, pending_step_count := 0 }

/-- `prv_select_click_handler`. -/
def press_select (s : Sys) : Sys :=
  if s.game.state = GameState.menu then reset_game s
  else if s.game.state = GameState.game_over then
    { s with game := { s.game with state := GameState.menu } }
  else if s.game.state = GameState.playing ∧ s.game.pyoro.dead = false then
    if s.game.pyoro.tongue.active = false then
      { s with
        pending_step_count := 0, pending_step_dir := 0,
        game := { s.game with pyoro :=
          { s.game.pyoro with
            moving := false,
            tongue :=
              { active := true,
                x := s.game.pyoro.x + (PYORO_VISUAL_SIZE/2 + 3/5) * (s.game.pyoro.direction : ℚ),
                y := s.game.pyoro.y - PYORO_VISUAL_SIZE/2 + 3/5,
                direction := s.game.pyoro.direction,
                going_back := false, caught_bean := false } } } }
    else s
  else s

/-- Common body of the four direction handlers: set facing to `new_dir`;
an opposite-direction press turns in place and clears the queue, otherwise
`nsteps` steps are queued (clamped to the max). -/
def dir_press (new_dir : ℤ) (nsteps : ℤ) (s : Sys) : Sys :=
  if s.game.state = GameState.playing ∧ s.game.pyoro.dead = false ∧
      s.game.pyoro.tongue.active = false then
    let was_dir := s.game.pyoro.direction
    let s1 := { s with game := { s.game with pyoro := { s.game.pyoro with direction := new_dir } } }
    if was_dir = -new_dir then
      { s1 with pending_step_count := 0, pending_step_dir := 0 }
    else
      let c := s.pending_step_count + nsteps
      { s1 with
        pending_step_dir := new_dir,
        pending_step_count := if c > PYORO_PENDING_STEPS_MAX then PYORO_PENDING_STEPS_MAX else c }
  else s

/-- `prv_up_click_handler` (UP = move left). -/
def press_up (s : Sys) : Sys := dir_press (-1) 1 s

/-- `prv_down_click_handler` (DOWN = move right). -/
def press_down (s : Sys) : Sys := dir_press 1 1 s

/-- `prv_up_repeating_click_handler`. -/
def press_up_repeat (s : Sys) : Sys := dir_press (-1) 4 s

/-- `prv_down_repeating_click_handler`. -/
def press_down_repeat (s : Sys) : Sys := dir_press 1 4 s

/-! ## Boot state and reachability -/

/-- The state after app start: static zero-initialisation, then
`load_high_scores` with no persisted data (all slots empty), then
`init_game`. -/
def initSys : Sys :=
  { game :=
    { state := GameState.menu,
      pyoro :=
        { x := 10, y := 18, direction := 1, moving := false, dead := false,
          button_held := false,
          tongue := { active := false, x := 0, y := 0, direction := 0,
                      going_back := false, caught_bean := false } },
      beans := List.replicate 5 defBean,
      blocks := List.replicate 20 { exists_ := true, is_repairing := false },
      angel := { x := 0, y := 0, active := false, target_block_index := 0, going_up := false },
      score := 0, game_speed := 1, bean_spawn_timer := 0, death_timer := 0,
      game_paused := false },
    pending_step_dir := 0, pending_step_count := 0,
    high_scores := List.replicate 10 HIGH_SCORE_EMPTY,
    last_game_score := 0 }

/-- States reachable from boot through ticks (any positive delta and any
spawn oracle, the tick source being substitutable per the design) and the
five input handlers. -/
inductive Reachable : Sys → Prop where
  | init : Reachable initSys
  | tick {s : Sys} (dt : ℚ) (o : SpawnRand) (hdt : 0 < dt) :
      Reachable s → Reachable (update_game dt o s)
  | select {s : Sys} : Reachable s → Reachable (press_select s)
  | up {s : Sys} : Reachable s → Reachable (press_up s)
  | down {s : Sys} : Reachable s → Reachable (press_down s)
  | up_repeat {s : Sys} : Reachable s → Reachable (press_up_repeat s)
  | down_repeat {s : Sys} : Reachable s → Reachable (press_down_repeat s)


/-! ## Auxiliary definitions for the verification layer -/

/-- Fields of the game state that one pass of the bean loop can never
change (it only moves/deactivates uncaught beans, destroys blocks and can
kill the character). -/
structure BeansPres (g g' : Game) : Prop where
  state : g'.state = g.state
  speed : g'.game_speed = g.game_speed
  timer : g'.bean_spawn_timer = g.bean_spawn_timer
  paused : g'.game_paused = g.game_paused
  angel : g'.angel = g.angel
  score : g'.score = g.score
  px : g'.pyoro.x = g.pyoro.x
  py : g'.pyoro.y = g.pyoro.y
  pdir : g'.pyoro.direction = g.pyoro.direction
  ptongue : g'.pyoro.tongue = g.pyoro.tongue
  blocklen : g'.blocks.length = g.blocks.length
  beanlen : g'.beans.length = g.beans.length
  repair : ∀ j : ℕ, (getA g'.blocks j defBlock).is_repairing =
    (getA g.blocks j defBlock).is_repairing

/-- A concrete playing state in mid-retraction with a caught bean, used to
instantiate the retraction-award theorem. -/
def c2s : Sys :=
  { initSys with game :=
    { initSys.game with
      state := GameState.playing,
      pyoro := { initSys.game.pyoro with tongue :=
        { active := true, x := 13, y := 17, direction := 1,
          going_back := true, caught_bean := true } },
      beans :=
        [{ x := 13, y := 17, speed := 1, active := true, caught := true, type := .green },
         defBean, defBean, defBean, defBean] } }

/-- A playing state with block 3 destroyed, everything else fresh. -/
def c4s : Game := { initSys.game with blocks := initSys.game.blocks.set 3 ⟨false, false⟩ }

/-- A freshly started game (select pressed in the menu), facing right. -/
def c8s : Sys := press_select initSys

/-- The clamped candidate position of one queued micro-step (the `new_x`
of `apply_pyoro_step`). -/
def stepNX (g : Game) (d : ℤ) : ℚ :=
  let new_x0 := g.pyoro.x + (d : ℚ) * PYORO_SINGLE_STEP
  if new_x0 < PYORO_SIZE / 2 then PYORO_SIZE / 2
  else if new_x0 > (GAME_WIDTH : ℚ) - PYORO_SIZE / 2 then (GAME_WIDTH : ℚ) - PYORO_SIZE / 2
  else new_x0

/-- Leftmost grid column of the footprint at the candidate position. -/
def stepBL (g : Game) (d : ℤ) : ℤ := cint (stepNX g d - PYORO_SIZE / 2)

/-- Rightmost grid column of the footprint at the candidate position. -/
def stepBR (g : Game) (d : ℤ) : ℤ := cint (stepNX g d + PYORO_SIZE / 2)

/-- A freshly started game with three queued rightward steps. -/
def c6s : Sys := { c8s with pending_step_dir := 1, pending_step_count := 3 }

/-- A playing state with one active uncaught bean over empty sky, unit
speed factor, unit game speed. -/
def c1s : Sys :=
  { initSys with game :=
    { initSys.game with
      state := GameState.playing,
      beans := [{ x := 1/2, y := 0, speed := 1, active := true, caught := false,
                  type := .green }, defBean, defBean, defBean, defBean] } }

/-- A playing state in mid-retraction whose bean 0 is active and caught. -/
def c9s : Sys :=
  { initSys with game :=
    { initSys.game with
      state := GameState.playing,
      pyoro := { initSys.game.pyoro with tongue :=
        { active := true, x := 13, y := 10, direction := 1,
          going_back := true, caught_bean := true } },
      beans := [{ x := 13, y := 10, speed := 1, active := true, caught := true,
                  type := .green }, defBean, defBean, defBean, defBean] } }

/-- The caught-bean coupling invariant: at most one active bean is caught,
an active caught bean exists exactly when the tongue is active with its
`caught_bean` flag set, and then the tongue is retracting. -/
def CaughtInv (g : Game) : Prop :=
  (∀ i j : ℕ, caughtActive (getA g.beans i defBean) = true →
    caughtActive (getA g.beans j defBean) = true → i = j) ∧
  ((∃ i : ℕ, caughtActive (getA g.beans i defBean) = true) ↔
    (g.pyoro.tongue.active = true ∧ g.pyoro.tongue.caught_bean = true)) ∧
  ((g.pyoro.tongue.active = true ∧ g.pyoro.tongue.caught_bean = true) →
    g.pyoro.tongue.going_back = true)

/-- The angel invariant of the descending phase: while the angel is active
and descending, its target index is an in-range column whose block is
marked `is_repairing` (plus the structural 20-column block table). -/
def AngelInv (g : Game) : Prop :=
  g.blocks.length = 20 ∧
  (g.angel.active = true → g.angel.going_up = false →
    0 ≤ g.angel.target_block_index ∧ g.angel.target_block_index < GAME_WIDTH ∧
    (getA g.blocks g.angel.target_block_index.toNat defBlock).is_repairing = true)

/-- Start playing, then run the concrete game history that destroys
column 0, catches the pink bean the destroyed column triggers, and lets
the repair angel descend: `c3s1` … `c3s8` are its successive states. -/
def c3s1 : Sys := press_select initSys

def c3s2 : Sys := update_game 2 ⟨0, 50, 4⟩ c3s1

def c3s3 : Sys := update_game 10 ⟨13, 50, 0⟩ c3s2

def c3s4 : Sys := update_game (63/10) ⟨0, 50, 4⟩ c3s3

def c3s5 : Sys := press_select c3s4

def c3s6 : Sys := update_game (1/100) ⟨0, 0, 0⟩ c3s5

def c3s7 : Sys := update_game (1/10) ⟨0, 0, 0⟩ c3s6

def c3s8 : Sys := update_game (1/2) ⟨0, 0, 0⟩ c3s7


/-! ## List access helper lemmas -/

theorem getA_simp_nil {α : Type} (i : ℕ) (d : α) : getA ([] : List α) i d = d := rfl

theorem getA_simp_zero {α : Type} (a : α) (as : List α) (d : α) :
    getA (a :: as) 0 d = a := rfl

theorem getA_simp_succ {α : Type} (a : α) (as : List α) (i : ℕ) (d : α) :
    getA (a :: as) (i + 1) d = getA as i d := rfl

theorem getD_set_ne {α : Type} (l : List α) (i j : ℕ) (a d : α) (h : i ≠ j) :
    getA (l.set i a) j d = getA l j d := by
  induction l generalizing i j with
  | nil => simp [List.set]
  | cons x xs ih =>
      cases i with
      | zero =>
          cases j with
          | zero => exact absurd rfl h
          | succ j => rfl
      | succ i =>
          cases j with
          | zero => rfl
          | succ j =>
              rw [List.set_cons_succ, getA_simp_succ, getA_simp_succ]
              exact ih i j (fun hc => h (by simp [hc]))

theorem getD_set_self {α : Type} (l : List α) (i : ℕ) (a d : α) (h : i < l.length) :
    getA (l.set i a) i d = a := by
  induction l generalizing i with
  | nil => simp at h
  | cons x xs ih =>
      cases i with
      | zero => rfl
      | succ i =>
          rw [List.set_cons_succ, getA_simp_succ]
          exact ih i (by simpa using h)

theorem findIdxA_spec {α : Type} (p : α → Bool) (l : List α) (i : ℕ) (d : α)
    (h : findIdxA p l = some i) : i < l.length ∧ p (getA l i d) = true := by
  induction l generalizing i with
  | nil => simp [findIdxA] at h
  | cons x xs ih =>
      by_cases hp : p x = true
      · simp [findIdxA, hp] at h
        subst h
        exact ⟨by simp, hp⟩
      · simp [findIdxA, hp] at h
        obtain ⟨j, hj, rfl⟩ := h
        obtain ⟨h1, h2⟩ := ih j hj
        exact ⟨by simpa using h1, by rwa [getA_simp_succ]⟩

theorem findIdxA_none {α : Type} (p : α → Bool) (l : List α)
    (h : ∀ a ∈ l, p a = false) : findIdxA p l = none := by
  induction l with
  | nil => rfl
  | cons x xs ih =>
      have hx := h x (by simp)
      simp [findIdxA, hx]
      exact ih fun a ha => h a (by simp [ha])

theorem findIdxA_set_same {α : Type} (p : α → Bool) (l : List α) (i : ℕ) (a : α)
    (h : findIdxA p l = some i) (ha : p a = true) :
    findIdxA p (l.set i a) = some i := by
  induction l generalizing i with
  | nil => simp [findIdxA] at h
  | cons x xs ih =>
      by_cases hp : p x = true
      · simp [findIdxA, hp] at h
        subst h
        simp [List.set, findIdxA, ha]
      · simp [findIdxA, hp] at h
        obtain ⟨j, hj, rfl⟩ := h
        simp [List.set, findIdxA, hp, ih j hj]

theorem set_oob {α : Type} (l : List α) (i : ℕ) (a : α) (h : l.length ≤ i) :
    l.set i a = l := by
  induction l generalizing i with
  | nil => rfl
  | cons x xs ih =>
      cases i with
      | zero => simp at h
      | succ i => simp only [List.set]; rw [ih i (by simpa using h)]

theorem getD_set_cases {α : Type} (l : List α) (i j : ℕ) (a d : α) :
    getA (l.set i a) j d = if i = j ∧ i < l.length then a else getA l j d := by
  by_cases hij : i = j
  · subst hij
    by_cases hlen : i < l.length
    · rw [getD_set_self l i a d hlen, if_pos ⟨rfl, hlen⟩]
    · rw [set_oob l i a (by omega), if_neg (by tauto)]
  · rw [getD_set_ne l i j a d hij, if_neg (by tauto)]

/-- Fields of the game state never touched by `apply_pyoro_step` (it only
moves `pyoro.x`). -/
theorem apply_pyoro_step_pres (d : ℤ) (g : Game) :
    (apply_pyoro_step d g).state = g.state ∧
    (apply_pyoro_step d g).beans = g.beans ∧
    (apply_pyoro_step d g).blocks = g.blocks ∧
    (apply_pyoro_step d g).angel = g.angel ∧
    (apply_pyoro_step d g).score = g.score ∧
    (apply_pyoro_step d g).game_speed = g.game_speed ∧
    (apply_pyoro_step d g).bean_spawn_timer = g.bean_spawn_timer ∧
    (apply_pyoro_step d g).death_timer = g.death_timer ∧
    (apply_pyoro_step d g).game_paused = g.game_paused ∧
    (apply_pyoro_step d g).pyoro.y = g.pyoro.y ∧
    (apply_pyoro_step d g).pyoro.direction = g.pyoro.direction ∧
    (apply_pyoro_step d g).pyoro.dead = g.pyoro.dead ∧
    (apply_pyoro_step d g).pyoro.tongue = g.pyoro.tongue := by
  simp only [apply_pyoro_step]
  split_ifs <;> simp

/-- An inactive tongue makes the tongue phase a no-op. -/
theorem update_tongue_inactive (dt : ℚ) (g : Game)
    (h : g.pyoro.tongue.active = false) : update_tongue dt g = g := by
  simp [update_tongue, h]

theorem slave_bean_length (tx ty : ℚ) (bs : List Bean) :
    (slave_bean tx ty bs).length = bs.length := by
  unfold slave_bean
  cases firstCaughtIdx bs <;> simp

/-- Slaving the caught bean to the tongue tip changes only its position:
all flags, speeds and types are untouched. -/
theorem slave_bean_flags (tx ty : ℚ) (bs : List Bean) (j : ℕ) :
    (getA (slave_bean tx ty bs) j defBean).active = (getA bs j defBean).active ∧
    (getA (slave_bean tx ty bs) j defBean).caught = (getA bs j defBean).caught ∧
    (getA (slave_bean tx ty bs) j defBean).speed = (getA bs j defBean).speed ∧
    (getA (slave_bean tx ty bs) j defBean).type = (getA bs j defBean).type := by
  unfold slave_bean
  cases h : firstCaughtIdx bs with
  | none => simp
  | some i =>
      rw [getD_set_cases]
      split_ifs with hc
      · obtain ⟨rfl, _⟩ := hc
        simp
      · simp

theorem spawn_angel_pres (bi : ℤ) (g : Game) :
    (spawn_angel bi g).state = g.state ∧
    (spawn_angel bi g).pyoro = g.pyoro ∧
    (spawn_angel bi g).beans = g.beans ∧
    (spawn_angel bi g).score = g.score ∧
    (spawn_angel bi g).game_speed = g.game_speed ∧
    (spawn_angel bi g).bean_spawn_timer = g.bean_spawn_timer ∧
    (spawn_angel bi g).death_timer = g.death_timer ∧
    (spawn_angel bi g).game_paused = g.game_paused ∧
    (spawn_angel bi g).blocks.length = g.blocks.length ∧
    (∀ j, (getA (spawn_angel bi g).blocks j defBlock).exists_ =
      (getA g.blocks j defBlock).exists_) := by
  simp only [spawn_angel]
  split_ifs with h1 h2 h3
  · simp
  · simp
  · simp
  · refine ⟨rfl, rfl, rfl, rfl, rfl, rfl, rfl, rfl, by simp, ?_⟩
    intro j
    rw [getD_set_cases]
    split_ifs with hc
    · obtain ⟨hj, _⟩ := hc
      rw [hj]
    · rfl

theorem complete_catch_pres (ty : ℚ) (g : Game) :
    (complete_catch ty g).state = g.state ∧
    (complete_catch ty g).game_speed = g.game_speed ∧
    (complete_catch ty g).bean_spawn_timer = g.bean_spawn_timer ∧
    (complete_catch ty g).death_timer = g.death_timer ∧
    (complete_catch ty g).game_paused = g.game_paused ∧
    (complete_catch ty g).pyoro = g.pyoro ∧
    (complete_catch ty g).blocks.length = g.blocks.length ∧
    (∀ j, (getA (complete_catch ty g).blocks j defBlock).exists_ =
      (getA g.blocks j defBlock).exists_) ∧
    (complete_catch ty g).beans.length = g.beans.length := by
  unfold complete_catch
  cases h : firstCaughtIdx g.beans with
  | none => simp
  | some i =>
      simp only []
      split_ifs with h1 h2
      · obtain ⟨p1, p2, p3, p4, p5, p6, p7, p8, p9, p10⟩ :=
          spawn_angel_pres (find_destroyed_block g.blocks) g
        refine ⟨p1, p5, p6, p7, p8, p2, p9, p10, ?_⟩
        simp [p3]
      · exact ⟨rfl, rfl, rfl, rfl, rfl, rfl, rfl, fun j => rfl, by simp⟩
      · exact ⟨rfl, rfl, rfl, rfl, rfl, rfl, rfl, fun j => rfl, by simp⟩

@[simp] theorem spawn_angel_state (bi : ℤ) (g : Game) :
    (spawn_angel bi g).state = g.state := (spawn_angel_pres bi g).1

@[simp] theorem spawn_angel_pyoro (bi : ℤ) (g : Game) :
    (spawn_angel bi g).pyoro = g.pyoro := (spawn_angel_pres bi g).2.1

@[simp] theorem spawn_angel_beans (bi : ℤ) (g : Game) :
    (spawn_angel bi g).beans = g.beans := (spawn_angel_pres bi g).2.2.1

@[simp] theorem spawn_angel_score (bi : ℤ) (g : Game) :
    (spawn_angel bi g).score = g.score := (spawn_angel_pres bi g).2.2.2.1

@[simp] theorem spawn_angel_game_speed (bi : ℤ) (g : Game) :
    (spawn_angel bi g).game_speed = g.game_speed := (spawn_angel_pres bi g).2.2.2.2.1

@[simp] theorem spawn_angel_bean_spawn_timer (bi : ℤ) (g : Game) :
    (spawn_angel bi g).bean_spawn_timer = g.bean_spawn_timer :=
  (spawn_angel_pres bi g).2.2.2.2.2.1

@[simp] theorem spawn_angel_death_timer (bi : ℤ) (g : Game) :
    (spawn_angel bi g).death_timer = g.death_timer := (spawn_angel_pres bi g).2.2.2.2.2.2.1

@[simp] theorem spawn_angel_game_paused (bi : ℤ) (g : Game) :
    (spawn_angel bi g).game_paused = g.game_paused := (spawn_angel_pres bi g).2.2.2.2.2.2.2.1

@[simp] theorem spawn_angel_blocks_length (bi : ℤ) (g : Game) :
    (spawn_angel bi g).blocks.length = g.blocks.length :=
  (spawn_angel_pres bi g).2.2.2.2.2.2.2.2.1

@[simp] theorem spawn_angel_blocks_exists (bi : ℤ) (g : Game) (j : ℕ) :
    (getA (spawn_angel bi g).blocks j defBlock).exists_ =
      (getA g.blocks j defBlock).exists_ :=
  (spawn_angel_pres bi g).2.2.2.2.2.2.2.2.2 j

@[simp] theorem complete_catch_state (ty : ℚ) (g : Game) :
    (complete_catch ty g).state = g.state := (complete_catch_pres ty g).1

@[simp] theorem complete_catch_game_speed (ty : ℚ) (g : Game) :
    (complete_catch ty g).game_speed = g.game_speed := (complete_catch_pres ty g).2.1

@[simp] theorem complete_catch_bean_spawn_timer (ty : ℚ) (g : Game) :
    (complete_catch ty g).bean_spawn_timer = g.bean_spawn_timer :=
  (complete_catch_pres ty g).2.2.1

@[simp] theorem complete_catch_death_timer (ty : ℚ) (g : Game) :
    (complete_catch ty g).death_timer = g.death_timer := (complete_catch_pres ty g).2.2.2.1

@[simp] theorem complete_catch_game_paused (ty : ℚ) (g : Game) :
    (complete_catch ty g).game_paused = g.game_paused := (complete_catch_pres ty g).2.2.2.2.1

@[simp] theorem complete_catch_pyoro (ty : ℚ) (g : Game) :
    (complete_catch ty g).pyoro = g.pyoro := (complete_catch_pres ty g).2.2.2.2.2.1

@[simp] theorem complete_catch_blocks_length (ty : ℚ) (g : Game) :
    (complete_catch ty g).blocks.length = g.blocks.length :=
  (complete_catch_pres ty g).2.2.2.2.2.2.1

@[simp] theorem complete_catch_blocks_exists (ty : ℚ) (g : Game) (j : ℕ) :
    (getA (complete_catch ty g).blocks j defBlock).exists_ =
      (getA g.blocks j defBlock).exists_ :=
  (complete_catch_pres ty g).2.2.2.2.2.2.2.1 j

@[simp] theorem complete_catch_beans_length (ty : ℚ) (g : Game) :
    (complete_catch ty g).beans.length = g.beans.length :=
  (complete_catch_pres ty g).2.2.2.2.2.2.2.2

@[simp] theorem slave_bean_length_simp (tx ty : ℚ) (bs : List Bean) :
    (slave_bean tx ty bs).length = bs.length := slave_bean_length tx ty bs

@[simp] theorem tongue_retract_state (dt : ℚ) (g : Game) :
    (tongue_retract dt g).state = g.state := by
  unfold tongue_retract; simp only []; split_ifs <;> simp

@[simp] theorem tongue_retract_game_speed (dt : ℚ) (g : Game) :
    (tongue_retract dt g).game_speed = g.game_speed := by
  unfold tongue_retract; simp only []; split_ifs <;> simp

@[simp] theorem tongue_retract_bean_spawn_timer (dt : ℚ) (g : Game) :
    (tongue_retract dt g).bean_spawn_timer = g.bean_spawn_timer := by
  unfold tongue_retract; simp only []; split_ifs <;> simp

@[simp] theorem tongue_retract_death_timer (dt : ℚ) (g : Game) :
    (tongue_retract dt g).death_timer = g.death_timer := by
  unfold tongue_retract; simp only []; split_ifs <;> simp

@[simp] theorem tongue_retract_game_paused (dt : ℚ) (g : Game) :
    (tongue_retract dt g).game_paused = g.game_paused := by
  unfold tongue_retract; simp only []; split_ifs <;> simp

@[simp] theorem tongue_retract_pyoro_x (dt : ℚ) (g : Game) :
    (tongue_retract dt g).pyoro.x = g.pyoro.x := by
  unfold tongue_retract; simp only []; split_ifs <;> simp

@[simp] theorem tongue_retract_pyoro_y (dt : ℚ) (g : Game) :
    (tongue_retract dt g).pyoro.y = g.pyoro.y := by
  unfold tongue_retract; simp only []; split_ifs <;> simp

@[simp] theorem tongue_retract_pyoro_direction (dt : ℚ) (g : Game) :
    (tongue_retract dt g).pyoro.direction = g.pyoro.direction := by
  unfold tongue_retract; simp only []; split_ifs <;> simp

@[simp] theorem tongue_retract_pyoro_dead (dt : ℚ) (g : Game) :
    (tongue_retract dt g).pyoro.dead = g.pyoro.dead := by
  unfold tongue_retract; simp only []; split_ifs <;> simp

@[simp] theorem tongue_retract_blocks_length (dt : ℚ) (g : Game) :
    (tongue_retract dt g).blocks.length = g.blocks.length := by
  unfold tongue_retract; simp only []; split_ifs <;> simp

@[simp] theorem tongue_retract_beans_length (dt : ℚ) (g : Game) :
    (tongue_retract dt g).beans.length = g.beans.length := by
  unfold tongue_retract; simp only []; split_ifs <;> simp

@[simp] theorem tongue_retract_blocks_exists_q (dt : ℚ) (g : Game) (j : ℕ) :
    (getA (tongue_retract dt g).blocks j defBlock).exists_ =
      (getA g.blocks j defBlock).exists_ := by
  unfold tongue_retract; simp only []; split_ifs <;> simp

@[simp] theorem tongue_extend_state (dt : ℚ) (g : Game) :
    (tongue_extend dt g).state = g.state := by
  unfold tongue_extend; simp only []; split_ifs <;> split <;> simp

@[simp] theorem tongue_extend_game_speed (dt : ℚ) (g : Game) :
    (tongue_extend dt g).game_speed = g.game_speed := by
  unfold tongue_extend; simp only []; split_ifs <;> split <;> simp

@[simp] theorem tongue_extend_bean_spawn_timer (dt : ℚ) (g : Game) :
    (tongue_extend dt g).bean_spawn_timer = g.bean_spawn_timer := by
  unfold tongue_extend; simp only []; split_ifs <;> split <;> simp

@[simp] theorem tongue_extend_death_timer (dt : ℚ) (g : Game) :
    (tongue_extend dt g).death_timer = g.death_timer := by
  unfold tongue_extend; simp only []; split_ifs <;> split <;> simp

@[simp] theorem tongue_extend_game_paused (dt : ℚ) (g : Game) :
    (tongue_extend dt g).game_paused = g.game_paused := by
  unfold tongue_extend; simp only []; split_ifs <;> split <;> simp

@[simp] theorem tongue_extend_pyoro_x (dt : ℚ) (g : Game) :
    (tongue_extend dt g).pyoro.x = g.pyoro.x := by
  unfold tongue_extend; simp only []; split_ifs <;> split <;> simp

@[simp] theorem tongue_extend_pyoro_y (dt : ℚ) (g : Game) :
    (tongue_extend dt g).pyoro.y = g.pyoro.y := by
  unfold tongue_extend; simp only []; split_ifs <;> split <;> simp

@[simp] theorem tongue_extend_pyoro_direction (dt : ℚ) (g : Game) :
    (tongue_extend dt g).pyoro.direction = g.pyoro.direction := by
  unfold tongue_extend; simp only []; split_ifs <;> split <;> simp

@[simp] theorem tongue_extend_pyoro_dead (dt : ℚ) (g : Game) :
    (tongue_extend dt g).pyoro.dead = g.pyoro.dead := by
  unfold tongue_extend; simp only []; split_ifs <;> split <;> simp

@[simp] theorem tongue_extend_blocks_length (dt : ℚ) (g : Game) :
    (tongue_extend dt g).blocks.length = g.blocks.length := by
  unfold tongue_extend; simp only []; split_ifs <;> split <;> simp

@[simp] theorem tongue_extend_beans_length (dt : ℚ) (g : Game) :
    (tongue_extend dt g).beans.length = g.beans.length := by
  unfold tongue_extend; simp only []; split_ifs <;> split <;> simp

@[simp] theorem tongue_extend_blocks_exists_q (dt : ℚ) (g : Game) (j : ℕ) :
    (getA (tongue_extend dt g).blocks j defBlock).exists_ =
      (getA g.blocks j defBlock).exists_ := by
  unfold tongue_extend; simp only []; split_ifs <;> split <;> simp

@[simp] theorem update_tongue_state (dt : ℚ) (g : Game) :
    (update_tongue dt g).state = g.state := by
  unfold update_tongue; split_ifs <;> simp

@[simp] theorem update_tongue_game_speed (dt : ℚ) (g : Game) :
    (update_tongue dt g).game_speed = g.game_speed := by
  unfold update_tongue; split_ifs <;> simp

@[simp] theorem update_tongue_bean_spawn_timer (dt : ℚ) (g : Game) :
    (update_tongue dt g).bean_spawn_timer = g.bean_spawn_timer := by
  unfold update_tongue; split_ifs <;> simp

@[simp] theorem update_tongue_death_timer (dt : ℚ) (g : Game) :
    (update_tongue dt g).death_timer = g.death_timer := by
  unfold update_tongue; split_ifs <;> simp

@[simp] theorem update_tongue_game_paused (dt : ℚ) (g : Game) :
    (update_tongue dt g).game_paused = g.game_paused := by
  unfold update_tongue; split_ifs <;> simp

@[simp] theorem update_tongue_pyoro_x (dt : ℚ) (g : Game) :
    (update_tongue dt g).pyoro.x = g.pyoro.x := by
  unfold update_tongue; split_ifs <;> simp

@[simp] theorem update_tongue_pyoro_y (dt : ℚ) (g : Game) :
    (update_tongue dt g).pyoro.y = g.pyoro.y := by
  unfold update_tongue; split_ifs <;> simp

@[simp] theorem update_tongue_pyoro_direction (dt : ℚ) (g : Game) :
    (update_tongue dt g).pyoro.direction = g.pyoro.direction := by
  unfold update_tongue; split_ifs <;> simp

@[simp] theorem update_tongue_pyoro_dead (dt : ℚ) (g : Game) :
    (update_tongue dt g).pyoro.dead = g.pyoro.dead := by
  unfold update_tongue; split_ifs <;> simp

@[simp] theorem update_tongue_blocks_length (dt : ℚ) (g : Game) :
    (update_tongue dt g).blocks.length = g.blocks.length := by
  unfold update_tongue; split_ifs <;> simp

@[simp] theorem update_tongue_beans_length (dt : ℚ) (g : Game) :
    (update_tongue dt g).beans.length = g.beans.length := by
  unfold update_tongue; split_ifs <;> simp

@[simp] theorem update_tongue_blocks_exists_q (dt : ℚ) (g : Game) (j : ℕ) :
    (getA (update_tongue dt g).blocks j defBlock).exists_ =
      (getA g.blocks j defBlock).exists_ := by
  unfold update_tongue; split_ifs <;> simp

theorem BeansPres.selfPres (g : Game) : BeansPres g g :=
  ⟨rfl, rfl, rfl, rfl, rfl, rfl, rfl, rfl, rfl, rfl, rfl, rfl, fun _ => rfl⟩

theorem BeansPres.trans {a b c : Game} (h1 : BeansPres a b) (h2 : BeansPres b c) :
    BeansPres a c :=
  ⟨h2.state.trans h1.state, h2.speed.trans h1.speed, h2.timer.trans h1.timer,
   h2.paused.trans h1.paused, h2.angel.trans h1.angel, h2.score.trans h1.score,
   h2.px.trans h1.px, h2.py.trans h1.py, h2.pdir.trans h1.pdir,
   h2.ptongue.trans h1.ptongue, h2.blocklen.trans h1.blocklen,
   h2.beanlen.trans h1.beanlen, fun j => (h2.repair j).trans (h1.repair j)⟩

theorem BeansPres.of_beans (g : Game) (bs : List Bean)
    (hlen : bs.length = g.beans.length) : BeansPres g { g with beans := bs } :=
  ⟨rfl, rfl, rfl, rfl, rfl, rfl, rfl, rfl, rfl, rfl, rfl, hlen, fun _ => rfl⟩

theorem BeansPres.of_beans_blocks (g : Game) (bs : List Bean)
    (hlen : bs.length = g.beans.length) (k : ℕ) (blk : Block)
    (hrep : blk.is_repairing = (getA g.blocks k defBlock).is_repairing) :
    BeansPres g { g with beans := bs, blocks := g.blocks.set k blk } := by
  refine ⟨rfl, rfl, rfl, rfl, rfl, rfl, rfl, rfl, rfl, rfl, by simp, hlen, ?_⟩
  intro j
  rw [getD_set_cases]
  split_ifs with hc
  · rw [hrep, hc.1]
  · rfl

theorem update_beans_list_pres (dt : ℚ) (l : List ℕ) :
    ∀ g : Game, BeansPres g (update_beans_list dt l g) := by
  induction l with
  | nil => exact fun g => BeansPres.selfPres g
  | cons i rest ih =>
      intro g
      rw [update_beans_list.eq_def]
      dsimp only
      split_ifs with h1 h2 h3 h4
      · -- break on collision: beans moved, dead set, timer set
        exact ⟨rfl, rfl, rfl, rfl, rfl, rfl, rfl, rfl, rfl, rfl, rfl, by simp, fun _ => rfl⟩
      · -- bean landed, block destroyed
        refine ((BeansPres.of_beans_blocks g _ ?_ _ _ ?_).trans (ih _)) <;> simp
      · -- bean landed, no existing block under it
        refine ((BeansPres.of_beans g _ ?_).trans (ih _)); simp
      · -- bean still falling
        refine ((BeansPres.of_beans g _ ?_).trans (ih _)); simp
      · -- inactive or caught bean: untouched
        exact ih g

@[simp] theorem update_beans_state (dt : ℚ) (g : Game) :
    (update_beans dt g).state = g.state := (update_beans_list_pres dt _ g).state

@[simp] theorem update_beans_game_speed (dt : ℚ) (g : Game) :
    (update_beans dt g).game_speed = g.game_speed := (update_beans_list_pres dt _ g).speed

@[simp] theorem update_beans_bean_spawn_timer (dt : ℚ) (g : Game) :
    (update_beans dt g).bean_spawn_timer = g.bean_spawn_timer := (update_beans_list_pres dt _ g).timer

@[simp] theorem update_beans_game_paused (dt : ℚ) (g : Game) :
    (update_beans dt g).game_paused = g.game_paused := (update_beans_list_pres dt _ g).paused

@[simp] theorem update_beans_angel (dt : ℚ) (g : Game) :
    (update_beans dt g).angel = g.angel := (update_beans_list_pres dt _ g).angel

@[simp] theorem update_beans_score (dt : ℚ) (g : Game) :
    (update_beans dt g).score = g.score := (update_beans_list_pres dt _ g).score

@[simp] theorem update_beans_pyoro_x (dt : ℚ) (g : Game) :
    (update_beans dt g).pyoro.x = g.pyoro.x := (update_beans_list_pres dt _ g).px

@[simp] theorem update_beans_pyoro_y (dt : ℚ) (g : Game) :
    (update_beans dt g).pyoro.y = g.pyoro.y := (update_beans_list_pres dt _ g).py

@[simp] theorem update_beans_pyoro_direction (dt : ℚ) (g : Game) :
    (update_beans dt g).pyoro.direction = g.pyoro.direction := (update_beans_list_pres dt _ g).pdir

@[simp] theorem update_beans_pyoro_tongue (dt : ℚ) (g : Game) :
    (update_beans dt g).pyoro.tongue = g.pyoro.tongue := (update_beans_list_pres dt _ g).ptongue

@[simp] theorem update_beans_blocks_length (dt : ℚ) (g : Game) :
    (update_beans dt g).blocks.length = g.blocks.length := (update_beans_list_pres dt _ g).blocklen

@[simp] theorem update_beans_beans_length (dt : ℚ) (g : Game) :
    (update_beans dt g).beans.length = g.beans.length := (update_beans_list_pres dt _ g).beanlen

@[simp] theorem update_beans_blocks_repair (dt : ℚ) (g : Game) (j : ℕ) :
    (getA (update_beans dt g).blocks j defBlock).is_repairing =
      (getA g.blocks j defBlock).is_repairing :=
  (update_beans_list_pres dt _ g).repair j

@[simp] theorem update_angel_state (dt : ℚ) (g : Game) :
    (update_angel dt g).state = g.state := by
  unfold update_angel; simp only []; split_ifs <;> simp

@[simp] theorem update_angel_game_speed (dt : ℚ) (g : Game) :
    (update_angel dt g).game_speed = g.game_speed := by
  unfold update_angel; simp only []; split_ifs <;> simp

@[simp] theorem update_angel_bean_spawn_timer (dt : ℚ) (g : Game) :
    (update_angel dt g).bean_spawn_timer = g.bean_spawn_timer := by
  unfold update_angel; simp only []; split_ifs <;> simp

@[simp] theorem update_angel_death_timer (dt : ℚ) (g : Game) :
    (update_angel dt g).death_timer = g.death_timer := by
  unfold update_angel; simp only []; split_ifs <;> simp

@[simp] theorem update_angel_game_paused (dt : ℚ) (g : Game) :
    (update_angel dt g).game_paused = g.game_paused := by
  unfold update_angel; simp only []; split_ifs <;> simp

@[simp] theorem update_angel_pyoro (dt : ℚ) (g : Game) :
    (update_angel dt g).pyoro = g.pyoro := by
  unfold update_angel; simp only []; split_ifs <;> simp

@[simp] theorem update_angel_beans (dt : ℚ) (g : Game) :
    (update_angel dt g).beans = g.beans := by
  unfold update_angel; simp only []; split_ifs <;> simp

@[simp] theorem update_angel_score (dt : ℚ) (g : Game) :
    (update_angel dt g).score = g.score := by
  unfold update_angel; simp only []; split_ifs <;> simp

@[simp] theorem update_angel_blocks_length (dt : ℚ) (g : Game) :
    (update_angel dt g).blocks.length = g.blocks.length := by
  unfold update_angel; simp only []; split_ifs <;> simp

@[simp] theorem spawn_bean_state (o : SpawnRand) (g : Game) :
    (spawn_bean o g).state = g.state := by
  unfold spawn_bean; simp only []
  cases findIdxA (fun b => !b.active) g.beans <;> simp

@[simp] theorem spawn_bean_game_speed (o : SpawnRand) (g : Game) :
    (spawn_bean o g).game_speed = g.game_speed := by
  unfold spawn_bean; simp only []
  cases findIdxA (fun b => !b.active) g.beans <;> simp

@[simp] theorem spawn_bean_bean_spawn_timer (o : SpawnRand) (g : Game) :
    (spawn_bean o g).bean_spawn_timer = g.bean_spawn_timer := by
  unfold spawn_bean; simp only []
  cases findIdxA (fun b => !b.active) g.beans <;> simp

@[simp] theorem spawn_bean_death_timer (o : SpawnRand) (g : Game) :
    (spawn_bean o g).death_timer = g.death_timer := by
  unfold spawn_bean; simp only []
  cases findIdxA (fun b => !b.active) g.beans <;> simp

@[simp] theorem spawn_bean_game_paused (o : SpawnRand) (g : Game) :
    (spawn_bean o g).game_paused = g.game_paused := by
  unfold spawn_bean; simp only []
  cases findIdxA (fun b => !b.active) g.beans <;> simp

@[simp] theorem spawn_bean_pyoro (o : SpawnRand) (g : Game) :
    (spawn_bean o g).pyoro = g.pyoro := by
  unfold spawn_bean; simp only []
  cases findIdxA (fun b => !b.active) g.beans <;> simp

@[simp] theorem spawn_bean_blocks (o : SpawnRand) (g : Game) :
    (spawn_bean o g).blocks = g.blocks := by
  unfold spawn_bean; simp only []
  cases findIdxA (fun b => !b.active) g.beans <;> simp

@[simp] theorem spawn_bean_angel (o : SpawnRand) (g : Game) :
    (spawn_bean o g).angel = g.angel := by
  unfold spawn_bean; simp only []
  cases findIdxA (fun b => !b.active) g.beans <;> simp

@[simp] theorem spawn_bean_score (o : SpawnRand) (g : Game) :
    (spawn_bean o g).score = g.score := by
  unfold spawn_bean; simp only []
  cases findIdxA (fun b => !b.active) g.beans <;> simp

@[simp] theorem spawn_bean_beans_length (o : SpawnRand) (g : Game) :
    (spawn_bean o g).beans.length = g.beans.length := by
  unfold spawn_bean; simp only []
  cases findIdxA (fun b => !b.active) g.beans <;> simp

@[simp] theorem spawn_phase_state (dt : ℚ) (o : SpawnRand) (g : Game) :
    (spawn_phase dt o g).state = g.state := by
  unfold spawn_phase; simp only []; split_ifs <;> simp

@[simp] theorem spawn_phase_game_speed (dt : ℚ) (o : SpawnRand) (g : Game) :
    (spawn_phase dt o g).game_speed = g.game_speed := by
  unfold spawn_phase; simp only []; split_ifs <;> simp

@[simp] theorem spawn_phase_pyoro (dt : ℚ) (o : SpawnRand) (g : Game) :
    (spawn_phase dt o g).pyoro = g.pyoro := by
  unfold spawn_phase; simp only []; split_ifs <;> simp

@[simp] theorem spawn_phase_blocks (dt : ℚ) (o : SpawnRand) (g : Game) :
    (spawn_phase dt o g).blocks = g.blocks := by
  unfold spawn_phase; simp only []; split_ifs <;> simp

@[simp] theorem spawn_phase_angel (dt : ℚ) (o : SpawnRand) (g : Game) :
    (spawn_phase dt o g).angel = g.angel := by
  unfold spawn_phase; simp only []; split_ifs <;> simp

@[simp] theorem spawn_phase_score (dt : ℚ) (o : SpawnRand) (g : Game) :
    (spawn_phase dt o g).score = g.score := by
  unfold spawn_phase; simp only []; split_ifs <;> simp

@[simp] theorem spawn_phase_death_timer (dt : ℚ) (o : SpawnRand) (g : Game) :
    (spawn_phase dt o g).death_timer = g.death_timer := by
  unfold spawn_phase; simp only []; split_ifs <;> simp

@[simp] theorem spawn_phase_game_paused (dt : ℚ) (o : SpawnRand) (g : Game) :
    (spawn_phase dt o g).game_paused = g.game_paused := by
  unfold spawn_phase; simp only []; split_ifs <;> simp

@[simp] theorem spawn_phase_beans_length (dt : ℚ) (o : SpawnRand) (g : Game) :
    (spawn_phase dt o g).beans.length = g.beans.length := by
  unfold spawn_phase; simp only []; split_ifs <;> simp

theorem update_game_alive (delta_time : ℚ) (o : SpawnRand) (s : Sys)
    (hstate : s.game.state = GameState.playing)
    (hpause : s.game.game_paused = false)
    (hdead : s.game.pyoro.dead = false) :
    update_game delta_time o s = tick_main delta_time o s := by
  unfold update_game
  rw [if_neg (by simp [hstate, hpause]), if_neg (by simp [hdead])]

/-- Slaving the caught bean to the tongue tip does not change which bean is
the first active caught one. -/
theorem firstCaughtIdx_slave (tx ty : ℚ) (bs : List Bean) :
    firstCaughtIdx (slave_bean tx ty bs) = firstCaughtIdx bs := by
  unfold slave_bean
  cases h : firstCaughtIdx bs with
  | none => exact h
  | some i =>
      unfold firstCaughtIdx at h ⊢
      rw [findIdxA_set_same _ _ _ _ h]
      have := (findIdxA_spec _ _ _ defBean h).2
      simpa [caughtActive] using this

/-- Retraction completion with a caught bean present adds exactly the
height-band award for the completed tip height. -/
theorem complete_catch_score (ty : ℚ) (g : Game) (i : ℕ)
    (h : firstCaughtIdx g.beans = some i) :
    (complete_catch ty g).score = g.score + score_for_height ty := by
  unfold complete_catch
  rw [h]
  simp only []
  split_ifs <;> simp

theorem tongue_retract_score_complete (dt : ℚ) (g : Game) (i : ℕ)
    (hcb : g.pyoro.tongue.caught_bean = true)
    (hfound : firstCaughtIdx g.beans = some i)
    (hdone : g.pyoro.tongue.y + TONGUE_SPEED * 2 * dt ≥ g.pyoro.y) :
    (tongue_retract dt g).score =
      g.score + score_for_height (g.pyoro.tongue.y + TONGUE_SPEED * 2 * dt) := by
  unfold tongue_retract
  simp only []
  rw [if_pos hdone, if_pos hcb, if_pos hcb]
  have hslave : firstCaughtIdx
      (slave_bean (g.pyoro.tongue.x - (g.pyoro.tongue.direction : ℚ) * (TONGUE_SPEED * 2 * dt))
        (g.pyoro.tongue.y + TONGUE_SPEED * 2 * dt) g.beans) = some i := by
    rw [firstCaughtIdx_slave]
    exact hfound
  exact complete_catch_score _ _ i hslave

/-- The five height bands of the award function, as intervals. -/
theorem score_for_height_bands (y : ℚ) :
    (y < GAME_HEIGHT * (2/10) → score_for_height y = 1000) ∧
    (GAME_HEIGHT * (2/10) ≤ y ∧ y < GAME_HEIGHT * (4/10) → score_for_height y = 300) ∧
    (GAME_HEIGHT * (4/10) ≤ y ∧ y < GAME_HEIGHT * (6/10) → score_for_height y = 100) ∧
    (GAME_HEIGHT * (6/10) ≤ y ∧ y < GAME_HEIGHT * (8/10) → score_for_height y = 50) ∧
    (GAME_HEIGHT * (8/10) ≤ y → score_for_height y = 10) := by
  unfold score_for_height
  refine ⟨?_, ?_, ?_, ?_, ?_⟩
  · intro hy
    rw [if_pos hy]
  · rintro ⟨hl, hr⟩
    rw [if_neg (by linarith), if_pos hr]
  · rintro ⟨hl, hr⟩
    rw [if_neg (by linarith), if_neg (by linarith), if_pos hr]
  · rintro ⟨hl, hr⟩
    rw [if_neg (by linarith), if_neg (by linarith), if_neg (by linarith), if_pos hr]
  · intro hy
    have h1 : ¬ y < GAME_HEIGHT * (2/10) := by
      simp only [GAME_HEIGHT] at hy ⊢; linarith
    have h2 : ¬ y < GAME_HEIGHT * (4/10) := by
      simp only [GAME_HEIGHT] at hy ⊢; linarith
    have h3 : ¬ y < GAME_HEIGHT * (6/10) := by
      simp only [GAME_HEIGHT] at hy ⊢; linarith
    have h4 : ¬ y < GAME_HEIGHT * (8/10) := by
      simp only [GAME_HEIGHT] at hy ⊢; linarith
    rw [if_neg h1, if_neg h2, if_neg h3, if_neg h4]

theorem update_tongue_retracting (dt : ℚ) (g : Game)
    (hact : g.pyoro.tongue.active = true) (hback : g.pyoro.tongue.going_back = true) :
    update_tongue dt g = tongue_retract dt g := by
  unfold update_tongue
  rw [if_neg (by simp [hact]), if_pos hback]

/-- C2: a retraction completing with a caught bean awards score by the
five fixed height bands of the completed tip height (20/40/60/80% of grid
height, tiers 1000/300/100/50/10), e.g. 1000 at 0.1×height, 100 at
0.5×height, 10 at 0.9×height. -/
theorem C2_retraction_award (delta : ℚ) (o : SpawnRand) (s : Sys) (i : ℕ)
    (hstate : s.game.state = GameState.playing)
    (hpause : s.game.game_paused = false)
    (hdead : s.game.pyoro.dead = false)
    (hact : s.game.pyoro.tongue.active = true)
    (hback : s.game.pyoro.tongue.going_back = true)
    (hcb : s.game.pyoro.tongue.caught_bean = true)
    (hfound : firstCaughtIdx s.game.beans = some i)
    (hdone : s.game.pyoro.tongue.y + TONGUE_SPEED * 2 * (delta * s.game.game_speed) ≥
      s.game.pyoro.y) :
    (update_game delta o s).game.score =
      s.game.score +
        score_for_height
          (s.game.pyoro.tongue.y + TONGUE_SPEED * 2 * (delta * s.game.game_speed)) ∧
    (∀ y : ℚ,
      (y < GAME_HEIGHT * (2/10) → score_for_height y = 1000) ∧
      (GAME_HEIGHT * (2/10) ≤ y ∧ y < GAME_HEIGHT * (4/10) → score_for_height y = 300) ∧
      (GAME_HEIGHT * (4/10) ≤ y ∧ y < GAME_HEIGHT * (6/10) → score_for_height y = 100) ∧
      (GAME_HEIGHT * (6/10) ≤ y ∧ y < GAME_HEIGHT * (8/10) → score_for_height y = 50) ∧
      (GAME_HEIGHT * (8/10) ≤ y → score_for_height y = 10)) ∧
    score_for_height (GAME_HEIGHT * (1/10)) = 1000 ∧
    score_for_height (GAME_HEIGHT * (5/10)) = 100 ∧
    score_for_height (GAME_HEIGHT * (9/10)) = 10 := by
  have hpt : score_for_height (GAME_HEIGHT * (1/10)) = 1000 ∧
      score_for_height (GAME_HEIGHT * (5/10)) = 100 ∧
      score_for_height (GAME_HEIGHT * (9/10)) = 10 := by
    refine ⟨?_, ?_, ?_⟩ <;> (simp only [score_for_height, GAME_HEIGHT]; norm_num)
  refine ⟨?_, score_for_height_bands, hpt.1, hpt.2.1, hpt.2.2⟩
  rw [update_game_alive delta o s hstate hpause hdead]
  unfold tick_main
  dsimp only
  rw [if_pos hact]
  dsimp only
  rw [update_tongue_retracting (delta * s.game.game_speed)
      { s.game with game_speed := s.game.game_speed +
          delta * s.game.game_speed * SPEED_ACCELERATION } hact hback]
  have hscore := tongue_retract_score_complete (delta * s.game.game_speed)
      { s.game with game_speed := s.game.game_speed +
          delta * s.game.game_speed * SPEED_ACCELERATION } i hcb hfound hdone
  simp only [spawn_phase_score, update_angel_score, update_beans_score]
  exact hscore

theorem C2_retraction_award_witness :
    firstCaughtIdx c2s.game.beans = some 0 ∧
    c2s.game.pyoro.tongue.y + TONGUE_SPEED * 2 * (1 * c2s.game.game_speed) ≥
      c2s.game.pyoro.y ∧
    (update_game 1 ⟨0, 0, 0⟩ c2s).game.score =
      c2s.game.score +
        score_for_height
          (c2s.game.pyoro.tongue.y + TONGUE_SPEED * 2 * (1 * c2s.game.game_speed)) :=
  ⟨by decide, by norm_num [TONGUE_SPEED, c2s, initSys],
   (C2_retraction_award 1 ⟨0, 0, 0⟩ c2s 0 rfl rfl rfl rfl rfl rfl (by decide)
     (by norm_num [TONGUE_SPEED, c2s, initSys])).1⟩

/-- C4: `spawn_angel` is a no-op when the index is out of range, the target
block exists or is already repairing, or an angel is already active;
otherwise it activates the angel above the block and marks the block as
repairing. -/
theorem C4_spawn_angel_cases (g : Game) (bi : ℤ) :
    ((bi < 0 ∨ GAME_WIDTH ≤ bi ∨ (getA g.blocks bi.toNat defBlock).exists_ = true ∨
        (getA g.blocks bi.toNat defBlock).is_repairing = true ∨ g.angel.active = true) →
      spawn_angel bi g = g) ∧
    ((0 ≤ bi ∧ bi < GAME_WIDTH ∧ (getA g.blocks bi.toNat defBlock).exists_ = false ∧
        (getA g.blocks bi.toNat defBlock).is_repairing = false ∧ g.angel.active = false) →
      spawn_angel bi g =
        { g with
          angel := { x := (bi : ℚ) + 1/2, y := 0, active := true,
                     target_block_index := bi, going_up := false },
          blocks := g.blocks.set bi.toNat
            { (getA g.blocks bi.toNat defBlock) with is_repairing := true } }) := by
  constructor
  · intro h
    unfold spawn_angel
    split_ifs with h1 h2 h3
    · rfl
    · rfl
    · rfl
    · exfalso
      rcases h with h | h | h | h | h
      · exact h1 (Or.inl h)
      · exact h1 (Or.inr h)
      · exact h2 (Or.inl h)
      · exact h2 (Or.inr h)
      · exact h3 h
  · rintro ⟨hr0, hr1, hex, hrep, hact⟩
    unfold spawn_angel
    rw [if_neg (by omega), if_neg (by simp [hex, hrep]), if_neg (by simp [hact])]

theorem C4_spawn_angel_cases_witness :
    ((getA c4s.blocks 0 defBlock).exists_ = true ∧ spawn_angel 0 c4s = c4s) ∧
    ((0 : ℤ) ≤ 3 ∧ (3 : ℤ) < GAME_WIDTH ∧ (getA c4s.blocks 3 defBlock).exists_ = false ∧
      (getA c4s.blocks 3 defBlock).is_repairing = false ∧ c4s.angel.active = false ∧
      spawn_angel 3 c4s =
        { c4s with
          angel := { x := (3 : ℚ) + 1/2, y := 0, active := true,
                     target_block_index := 3, going_up := false },
          blocks := c4s.blocks.set 3
            { (getA c4s.blocks 3 defBlock) with is_repairing := true } }) :=
  ⟨⟨by decide, (C4_spawn_angel_cases c4s 0).1 (Or.inr (Or.inr (Or.inl (by decide))))⟩,
   by decide, by decide, by decide, by decide, by decide,
   (C4_spawn_angel_cases c4s 3).2 ⟨by decide, by decide, by decide, by decide, by decide⟩⟩

/-- C5: high-score insertion keeps the table sorted descending with ties
after the earlier equal entry ([50,200,75] into an empty table gives
[200,75,50,EMPTY,...]; a tie inserts after the existing equal score), and
a score below every entry of a full table is dropped. -/
theorem C5_insert_high_score :
    insert_high_score 75 (insert_high_score 200 (insert_high_score 50
        (List.replicate 10 HIGH_SCORE_EMPTY))) =
      [200, 75, 50, HIGH_SCORE_EMPTY, HIGH_SCORE_EMPTY, HIGH_SCORE_EMPTY,
       HIGH_SCORE_EMPTY, HIGH_SCORE_EMPTY, HIGH_SCORE_EMPTY, HIGH_SCORE_EMPTY] ∧
    insert_high_score 50 (insert_high_score 50 (List.replicate 10 HIGH_SCORE_EMPTY)) =
      [50, 50, HIGH_SCORE_EMPTY, HIGH_SCORE_EMPTY, HIGH_SCORE_EMPTY, HIGH_SCORE_EMPTY,
       HIGH_SCORE_EMPTY, HIGH_SCORE_EMPTY, HIGH_SCORE_EMPTY, HIGH_SCORE_EMPTY] ∧
    (∀ (t : List ℤ) (score : ℤ), t.length = 10 →
      (∀ v ∈ t, v ≠ HIGH_SCORE_EMPTY ∧ score < v) →
      insert_high_score score t = t) := by
  refine ⟨by decide, by decide, ?_⟩
  intro t score hlen hall
  unfold insert_high_score
  rw [findIdxA_none]
  intro a ha
  obtain ⟨h1, h2⟩ := hall a ha
  simp only [Bool.or_eq_false_iff, beq_eq_false_iff_ne, ne_eq, decide_eq_false_iff_not,
    not_lt]
  exact ⟨h1, le_of_lt h2⟩

theorem C5_insert_high_score_witness :
    ([100, 90, 80, 70, 60, 50, 40, 30, 20, (10 : ℤ)].length = 10 ∧
      (∀ v ∈ [100, 90, 80, 70, 60, 50, 40, 30, 20, (10 : ℤ)],
        v ≠ HIGH_SCORE_EMPTY ∧ (5 : ℤ) < v)) ∧
    insert_high_score 5 [100, 90, 80, 70, 60, 50, 40, 30, 20, 10] =
      [100, 90, 80, 70, 60, 50, 40, 30, 20, 10] :=
  ⟨⟨by decide, by decide⟩,
   C5_insert_high_score.2.2 [100, 90, 80, 70, 60, 50, 40, 30, 20, 10] 5
     (by decide) (by decide)⟩

/-- C8: a direction press opposite to the current facing (while playing,
alive, tongue inactive) flips the facing, clears the step queue, queues
nothing, and leaves everything else (in particular the position)
unchanged.  Covers the single and the repeating handlers. -/
theorem C8_turn_in_place (s : Sys)
    (hstate : s.game.state = GameState.playing)
    (hdead : s.game.pyoro.dead = false)
    (htongue : s.game.pyoro.tongue.active = false) :
    (s.game.pyoro.direction = 1 →
      press_up s =
        { s with
          game := { s.game with pyoro := { s.game.pyoro with direction := -1 } },
          pending_step_dir := 0, pending_step_count := 0 } ∧
      press_up_repeat s =
        { s with
          game := { s.game with pyoro := { s.game.pyoro with direction := -1 } },
          pending_step_dir := 0, pending_step_count := 0 }) ∧
    (s.game.pyoro.direction = -1 →
      press_down s =
        { s with
          game := { s.game with pyoro := { s.game.pyoro with direction := 1 } },
          pending_step_dir := 0, pending_step_count := 0 } ∧
      press_down_repeat s =
        { s with
          game := { s.game with pyoro := { s.game.pyoro with direction := 1 } },
          pending_step_dir := 0, pending_step_count := 0 }) := by
  constructor
  · intro hdir
    refine ⟨?_, ?_⟩
    · unfold press_up dir_press
      rw [if_pos ⟨hstate, hdead, htongue⟩, if_pos (by omega)]
    · unfold press_up_repeat dir_press
      rw [if_pos ⟨hstate, hdead, htongue⟩, if_pos (by omega)]
  · intro hdir
    refine ⟨?_, ?_⟩
    · unfold press_down dir_press
      rw [if_pos ⟨hstate, hdead, htongue⟩, if_pos (by omega)]
    · unfold press_down_repeat dir_press
      rw [if_pos ⟨hstate, hdead, htongue⟩, if_pos (by omega)]

theorem C8_turn_in_place_witness :
    (c8s.game.state = GameState.playing ∧ c8s.game.pyoro.dead = false ∧
      c8s.game.pyoro.tongue.active = false ∧ c8s.game.pyoro.direction = 1) ∧
    press_up c8s =
      { c8s with
        game := { c8s.game with pyoro := { c8s.game.pyoro with direction := -1 } },
        pending_step_dir := 0, pending_step_count := 0 } :=
  ⟨⟨by decide, by decide, by decide, by decide⟩,
   ((C8_turn_in_place c8s (by decide) (by decide) (by decide)).1 (by decide)).1⟩

theorem apply_pyoro_step_eq (d : ℤ) (g : Game) :
    apply_pyoro_step d g =
      if hole_under g.blocks (stepBL g d) (stepBR g d) = true then g
      else { g with pyoro := { g.pyoro with x := stepNX g d } } := rfl

/-- The column scan succeeds exactly when some in-range spanned column has
no block. -/
theorem hole_under_iff (blocks : List Block) (l r : ℤ) :
    hole_under blocks l r = true ↔
      ∃ i : ℕ, i < 20 ∧ l ≤ (i : ℤ) ∧ (i : ℤ) ≤ r ∧
        (getA blocks i defBlock).exists_ = false := by
  unfold hole_under
  rw [List.any_eq_true]
  constructor
  · rintro ⟨i, hmem, hp⟩
    rw [List.mem_range] at hmem
    simp only [Bool.and_eq_true, decide_eq_true_eq, Bool.not_eq_true'] at hp
    exact ⟨i, hmem, hp.1.1, hp.1.2, by simpa using hp.2⟩
  · rintro ⟨i, hlt, h1, h2, h3⟩
    refine ⟨i, List.mem_range.mpr hlt, ?_⟩
    simp only [Bool.and_eq_true, decide_eq_true_eq, Bool.not_eq_true']
    exact ⟨⟨h1, h2⟩, by simpa using h3⟩

theorem apply_pyoro_step_x_speed (d : ℤ) (g : Game) (sp : ℚ) :
    (apply_pyoro_step d { g with game_speed := sp }).pyoro.x =
      (apply_pyoro_step d g).pyoro.x := by
  unfold apply_pyoro_step
  dsimp only
  split_ifs <;> rfl

/-- C6: a tick that drains a queued step always consumes exactly one
pending step; the position is unchanged when a spanned column at the
clamped candidate lacks a block, and becomes the clamped candidate
otherwise. -/
theorem C6_step_drain (delta : ℚ) (o : SpawnRand) (s : Sys)
    (hstate : s.game.state = GameState.playing)
    (hpause : s.game.game_paused = false)
    (hdead : s.game.pyoro.dead = false)
    (htongue : s.game.pyoro.tongue.active = false)
    (hcount : 0 < s.pending_step_count)
    (hdir : s.pending_step_dir ≠ 0) :
    (update_game delta o s).pending_step_count = s.pending_step_count - 1 ∧
    (update_game delta o s).game.pyoro.x =
      (apply_pyoro_step s.pending_step_dir s.game).pyoro.x ∧
    (∀ (d : ℤ) (g : Game),
      ((∃ i : ℕ, i < 20 ∧ stepBL g d ≤ (i : ℤ) ∧ (i : ℤ) ≤ stepBR g d ∧
          (getA g.blocks i defBlock).exists_ = false) →
        (apply_pyoro_step d g).pyoro.x = g.pyoro.x) ∧
      (¬(∃ i : ℕ, i < 20 ∧ stepBL g d ≤ (i : ℤ) ∧ (i : ℤ) ≤ stepBR g d ∧
          (getA g.blocks i defBlock).exists_ = false) →
        (apply_pyoro_step d g).pyoro.x = stepNX g d)) := by
  have hchar : ∀ (d : ℤ) (g : Game),
      ((∃ i : ℕ, i < 20 ∧ stepBL g d ≤ (i : ℤ) ∧ (i : ℤ) ≤ stepBR g d ∧
          (getA g.blocks i defBlock).exists_ = false) →
        (apply_pyoro_step d g).pyoro.x = g.pyoro.x) ∧
      (¬(∃ i : ℕ, i < 20 ∧ stepBL g d ≤ (i : ℤ) ∧ (i : ℤ) ≤ stepBR g d ∧
          (getA g.blocks i defBlock).exists_ = false) →
        (apply_pyoro_step d g).pyoro.x = stepNX g d) := by
    intro d g
    rw [apply_pyoro_step_eq]
    constructor
    · intro h
      rw [if_pos ((hole_under_iff _ _ _).mpr h)]
    · intro h
      rw [if_neg (fun hc => h ((hole_under_iff _ _ _).mp hc))]
  have hta : ¬(({ s.game with game_speed := s.game.game_speed +
      delta * s.game.game_speed * SPEED_ACCELERATION }).pyoro.tongue.active = true) := by
    simp [htongue]
  refine ⟨?_, ?_, hchar⟩
  · rw [update_game_alive delta o s hstate hpause hdead]
    unfold tick_main
    dsimp only
    rw [if_neg hta, if_pos (And.intro hcount hdir)]
  · rw [update_game_alive delta o s hstate hpause hdead]
    unfold tick_main
    dsimp only
    rw [if_neg hta, if_pos (And.intro hcount hdir)]
    dsimp only
    simp only [spawn_phase_pyoro, update_angel_pyoro, update_beans_pyoro_x,
      update_tongue_pyoro_x, apply_pyoro_step_x_speed]

theorem C6_step_drain_witness :
    (c6s.game.state = GameState.playing ∧ c6s.game.game_paused = false ∧
      c6s.game.pyoro.dead = false ∧ c6s.game.pyoro.tongue.active = false ∧
      0 < c6s.pending_step_count ∧ c6s.pending_step_dir ≠ 0) ∧
    (update_game 1 ⟨0, 0, 0⟩ c6s).pending_step_count = c6s.pending_step_count - 1 ∧
    (update_game 1 ⟨0, 0, 0⟩ c6s).game.pyoro.x =
      (apply_pyoro_step c6s.pending_step_dir c6s.game).pyoro.x :=
  ⟨⟨by decide, by decide, by decide, by decide, by decide, by decide⟩,
   (C6_step_drain 1 ⟨0, 0, 0⟩ c6s (by decide) (by decide) (by decide) (by decide)
     (by decide) (by decide)).1,
   (C6_step_drain 1 ⟨0, 0, 0⟩ c6s (by decide) (by decide) (by decide) (by decide)
     (by decide) (by decide)).2.1⟩

@[simp] theorem apply_pyoro_step_beans (d : ℤ) (g : Game) :
    (apply_pyoro_step d g).beans = g.beans := (apply_pyoro_step_pres d g).2.1

@[simp] theorem apply_pyoro_step_blocks (d : ℤ) (g : Game) :
    (apply_pyoro_step d g).blocks = g.blocks := (apply_pyoro_step_pres d g).2.2.1

@[simp] theorem apply_pyoro_step_angel (d : ℤ) (g : Game) :
    (apply_pyoro_step d g).angel = g.angel := (apply_pyoro_step_pres d g).2.2.2.1

@[simp] theorem apply_pyoro_step_score (d : ℤ) (g : Game) :
    (apply_pyoro_step d g).score = g.score := (apply_pyoro_step_pres d g).2.2.2.2.1

@[simp] theorem apply_pyoro_step_game_speed (d : ℤ) (g : Game) :
    (apply_pyoro_step d g).game_speed = g.game_speed := (apply_pyoro_step_pres d g).2.2.2.2.2.1

@[simp] theorem apply_pyoro_step_bean_spawn_timer (d : ℤ) (g : Game) :
    (apply_pyoro_step d g).bean_spawn_timer = g.bean_spawn_timer :=
  (apply_pyoro_step_pres d g).2.2.2.2.2.2.1

@[simp] theorem apply_pyoro_step_death_timer (d : ℤ) (g : Game) :
    (apply_pyoro_step d g).death_timer = g.death_timer :=
  (apply_pyoro_step_pres d g).2.2.2.2.2.2.2.1

@[simp] theorem apply_pyoro_step_game_paused (d : ℤ) (g : Game) :
    (apply_pyoro_step d g).game_paused = g.game_paused :=
  (apply_pyoro_step_pres d g).2.2.2.2.2.2.2.2.1

@[simp] theorem apply_pyoro_step_state (d : ℤ) (g : Game) :
    (apply_pyoro_step d g).state = g.state := (apply_pyoro_step_pres d g).1

@[simp] theorem apply_pyoro_step_pyoro_y (d : ℤ) (g : Game) :
    (apply_pyoro_step d g).pyoro.y = g.pyoro.y :=
  (apply_pyoro_step_pres d g).2.2.2.2.2.2.2.2.2.1

@[simp] theorem apply_pyoro_step_pyoro_direction (d : ℤ) (g : Game) :
    (apply_pyoro_step d g).pyoro.direction = g.pyoro.direction :=
  (apply_pyoro_step_pres d g).2.2.2.2.2.2.2.2.2.2.1

@[simp] theorem apply_pyoro_step_pyoro_dead (d : ℤ) (g : Game) :
    (apply_pyoro_step d g).pyoro.dead = g.pyoro.dead :=
  (apply_pyoro_step_pres d g).2.2.2.2.2.2.2.2.2.2.2.1

@[simp] theorem apply_pyoro_step_pyoro_tongue (d : ℤ) (g : Game) :
    (apply_pyoro_step d g).pyoro.tongue = g.pyoro.tongue :=
  (apply_pyoro_step_pres d g).2.2.2.2.2.2.2.2.2.2.2.2

theorem getD_oob {α : Type} (l : List α) (i : ℕ) (d : α) (h : l.length ≤ i) :
    getA l i d = d := by
  induction l generalizing i with
  | nil => rfl
  | cons x xs ih =>
      cases i with
      | zero => simp at h
      | succ i =>
          rw [getA_simp_succ]
          exact ih i (by simpa using h)

/-- Bean slots whose index is not processed by a pass of the bean loop are
untouched. -/
theorem update_beans_list_notmem (dt : ℚ) (l : List ℕ) (g : Game) (i : ℕ)
    (h : i ∉ l) :
    getA (update_beans_list dt l g).beans i defBean = getA g.beans i defBean := by
  induction l generalizing g with
  | nil => rfl
  | cons j rest ih =>
      have hji : j ≠ i := fun hc => h (by simp [hc])
      have hrest : i ∉ rest := fun hc => h (by simp [hc])
      rw [update_beans_list.eq_def]
      dsimp only
      split_ifs with h1 h2 h3 h4
      · dsimp only
        exact getD_set_ne _ _ _ _ _ hji
      · rw [ih _ hrest]
        dsimp only
        rw [getD_set_ne _ _ _ _ _ hji]
      · rw [ih _ hrest]
        dsimp only
        rw [getD_set_ne _ _ _ _ _ hji]
      · rw [ih _ hrest]
        dsimp only
        rw [getD_set_ne _ _ _ _ _ hji]
      · exact ih _ hrest

/-- When no bean killed the character during the pass, every active
uncaught bean that stays above the ground line moves down by exactly
`BEAN_SPEED * speed * dt * game_speed` (with `game_speed` the value the
loop reads, i.e. the one already updated this tick). -/
theorem update_beans_list_move (dt : ℚ) (l : List ℕ) :
    ∀ (g : Game) (i : ℕ), i ∈ l → l.Nodup →
    (getA g.beans i defBean).active = true →
    (getA g.beans i defBean).caught = false →
    (getA g.beans i defBean).y +
        BEAN_SPEED * (getA g.beans i defBean).speed * dt * g.game_speed <
      GAME_HEIGHT - 1 →
    (update_beans_list dt l g).pyoro.dead = false →
    getA (update_beans_list dt l g).beans i defBean =
      { getA g.beans i defBean with
        y := (getA g.beans i defBean).y +
          BEAN_SPEED * (getA g.beans i defBean).speed * dt * g.game_speed } := by
  induction l with
  | nil =>
      intro g i hmem
      simp at hmem
  | cons j rest ih =>
      intro g i hmem hnodup hact hcaught hair hnodeath
      rw [update_beans_list.eq_def] at hnodeath ⊢
      dsimp only at hnodeath ⊢
      by_cases hij : j = i
      · subst hij
        rw [if_pos (by simp [hact, hcaught])] at hnodeath ⊢
        split_ifs at hnodeath ⊢ with h2 h3 h4
        all_goals try (refine absurd hair ?_; rw [not_lt]; rw [ge_iff_le] at h3; exact h3)
        have hrest : j ∉ rest := (List.nodup_cons.mp hnodup).1
        rw [update_beans_list_notmem dt rest _ j hrest]
        dsimp only
        have hlen : j < g.beans.length := by
          by_contra hc
          rw [getD_oob g.beans j defBean (by omega)] at hact
          simp [defBean] at hact
        exact getD_set_self _ _ _ _ hlen
      · have hmem' : i ∈ rest := by
          rcases List.mem_cons.mp hmem with h | h
          · exact absurd h.symm hij
          · exact h
        have hnd : rest.Nodup := (List.nodup_cons.mp hnodup).2
        split_ifs at hnodeath ⊢ with h1 h2 h3 h4
        all_goals try (exact ih _ i hmem' hnd hact hcaught hair hnodeath)
        all_goals
          refine (ih _ i hmem' hnd ?_ ?_ ?_ hnodeath).trans ?_ <;>
            (dsimp only
             rw [getD_set_ne _ _ _ _ _ hij]
             try (first | exact hact | exact hcaught | exact hair | rfl))

theorem spawn_bean_getA_active (o : SpawnRand) (g : Game) (i : ℕ)
    (h : (getA g.beans i defBean).active = true) :
    getA (spawn_bean o g).beans i defBean = getA g.beans i defBean := by
  unfold spawn_bean
  cases hf : findIdxA (fun b => !b.active) g.beans with
  | none => rfl
  | some k =>
      dsimp only
      have hk := (findIdxA_spec _ _ _ defBean hf).2
      have hne : k ≠ i := by
        intro hc
        subst hc
        simp [h] at hk
      exact getD_set_ne _ _ _ _ _ hne

/-- C1 as stated is false: on a tick from `c1s` (playing, alive, active
uncaught bean), the bean falls by `speed * BEAN_SPEED * dt' * game_speed'`
(with `game_speed'` the freshly accelerated speed), not by
`speed * BEAN_SPEED * dt'`: the actual increment is 909/500, the claimed
one 9/5. -/
theorem C1_bean_speed_counterexample :
    c1s.game.state = GameState.playing ∧ c1s.game.game_paused = false ∧
    c1s.game.pyoro.dead = false ∧
    (getA c1s.game.beans 0 defBean).active = true ∧
    (getA c1s.game.beans 0 defBean).caught = false ∧
    (getA (update_game 1 ⟨0, 0, 4⟩ c1s).game.beans 0 defBean).y = 909/500 ∧
    ¬ (getA (update_game 1 ⟨0, 0, 4⟩ c1s).game.beans 0 defBean).y =
        (getA c1s.game.beans 0 defBean).y +
          (getA c1s.game.beans 0 defBean).speed * BEAN_SPEED *
            (1 * c1s.game.game_speed) := by
  refine ⟨rfl, rfl, rfl, rfl, rfl, ?_, ?_⟩ <;> decide

theorem spawn_phase_getA_active (dt : ℚ) (o : SpawnRand) (g : Game) (i : ℕ)
    (h : (getA g.beans i defBean).active = true) :
    getA (spawn_phase dt o g).beans i defBean = getA g.beans i defBean := by
  unfold spawn_phase
  simp only []
  split_ifs with hc
  · dsimp only
    exact spawn_bean_getA_active o g i h
  · rfl

/-- The tail of an alive tick after the step-queue drain: with the tongue
inactive, each active uncaught airborne bean falls by exactly
`BEAN_SPEED * speed * dt * game_speed` (the loop reads the already updated
game speed), provided no bean kills the character. -/
theorem tick_tail_move (dt : ℚ) (o : SpawnRand) (G : Game) (i : ℕ)
    (hmem : i ∈ [0, 1, 2, 3, 4])
    (ht : G.pyoro.tongue.active = false)
    (hact : (getA G.beans i defBean).active = true)
    (hcaught : (getA G.beans i defBean).caught = false)
    (hair : (getA G.beans i defBean).y +
        BEAN_SPEED * (getA G.beans i defBean).speed * dt * G.game_speed < GAME_HEIGHT - 1)
    (halive : (spawn_phase dt o (update_angel dt (update_beans dt (update_tongue dt G)))).pyoro.dead
      = false) :
    getA (spawn_phase dt o (update_angel dt (update_beans dt (update_tongue dt G)))).beans i
        defBean =
      { getA G.beans i defBean with
        y := (getA G.beans i defBean).y +
          BEAN_SPEED * (getA G.beans i defBean).speed * dt * G.game_speed } := by
  rw [update_tongue_inactive dt G ht] at halive ⊢
  simp only [spawn_phase_pyoro, update_angel_pyoro] at halive
  have hmove : getA (update_beans dt G).beans i defBean =
      { getA G.beans i defBean with
        y := (getA G.beans i defBean).y +
          BEAN_SPEED * (getA G.beans i defBean).speed * dt * G.game_speed } :=
    update_beans_list_move dt [0, 1, 2, 3, 4] G i hmem (by decide) hact hcaught hair halive
  rw [spawn_phase_getA_active]
  · rw [update_angel_beans]
    exact hmove
  · rw [update_angel_beans, hmove]
    exact hact

/-- C1 (amended): while playing with the character alive and the tongue
inactive, a tick moves each active uncaught bean down by exactly
`speed * BEAN_SPEED * dt' * game_speed'`, where `dt' = delta * game_speed`
is the scaled delta of the tick and `game_speed' = game_speed +
dt' * SPEED_ACCELERATION` is the freshly accelerated game speed the bean
loop reads — provided no bean kills the character this tick and the bean
stays above the ground line. -/
theorem C1_bean_fall_amended (delta : ℚ) (o : SpawnRand) (s : Sys) (i : ℕ)
    (hstate : s.game.state = GameState.playing)
    (hpause : s.game.game_paused = false)
    (hdead : s.game.pyoro.dead = false)
    (htongue : s.game.pyoro.tongue.active = false)
    (hi : i < 5)
    (hact : (getA s.game.beans i defBean).active = true)
    (hcaught : (getA s.game.beans i defBean).caught = false)
    (hair : (getA s.game.beans i defBean).y +
        BEAN_SPEED * (getA s.game.beans i defBean).speed * (delta * s.game.game_speed) *
          (s.game.game_speed + delta * s.game.game_speed * SPEED_ACCELERATION) <
      GAME_HEIGHT - 1)
    (halive : (update_game delta o s).game.pyoro.dead = false) :
    (getA (update_game delta o s).game.beans i defBean).y =
      (getA s.game.beans i defBean).y +
        BEAN_SPEED * (getA s.game.beans i defBean).speed * (delta * s.game.game_speed) *
          (s.game.game_speed + delta * s.game.game_speed * SPEED_ACCELERATION) := by
  have hmem : i ∈ [0, 1, 2, 3, 4] := by
    interval_cases i <;> simp
  have hta : ¬(({ s.game with game_speed := s.game.game_speed +
      delta * s.game.game_speed * SPEED_ACCELERATION }).pyoro.tongue.active = true) := by
    simp [htongue]
  rw [update_game_alive delta o s hstate hpause hdead] at halive ⊢
  unfold tick_main at halive ⊢
  dsimp only at halive ⊢
  rw [if_neg hta] at halive ⊢
  split_ifs at halive ⊢ with hq hc
  all_goals dsimp only at halive ⊢
  · rw [tick_tail_move _ o _ i hmem
      (by rw [apply_pyoro_step_pyoro_tongue]; exact htongue)
      (by rw [apply_pyoro_step_beans]; exact hact)
      (by rw [apply_pyoro_step_beans]; exact hcaught)
      (by rw [apply_pyoro_step_beans, apply_pyoro_step_game_speed]; exact hair) halive]
    rw [apply_pyoro_step_beans, apply_pyoro_step_game_speed]
  · rw [tick_tail_move _ o _ i hmem
      (by rw [apply_pyoro_step_pyoro_tongue]; exact htongue)
      (by rw [apply_pyoro_step_beans]; exact hact)
      (by rw [apply_pyoro_step_beans]; exact hcaught)
      (by rw [apply_pyoro_step_beans, apply_pyoro_step_game_speed]; exact hair) halive]
    rw [apply_pyoro_step_beans, apply_pyoro_step_game_speed]
  · rw [tick_tail_move (delta * s.game.game_speed) o
      { s.game with game_speed := s.game.game_speed +
          delta * s.game.game_speed * SPEED_ACCELERATION }
      i hmem htongue hact hcaught hair halive]

theorem C1_bean_fall_amended_witness :
    (getA (update_game 1 ⟨0, 0, 4⟩ c1s).game.beans 0 defBean).y =
      (getA c1s.game.beans 0 defBean).y +
        BEAN_SPEED * (getA c1s.game.beans 0 defBean).speed * (1 * c1s.game.game_speed) *
          (c1s.game.game_speed + 1 * c1s.game.game_speed * SPEED_ACCELERATION) :=
  C1_bean_fall_amended 1 ⟨0, 0, 4⟩ c1s 0 rfl rfl rfl rfl (by decide) rfl rfl
    (by decide) (by decide)

/-- The clamp of `apply_pyoro_step` keeps the x position inside `[1, 19]`
whenever it was inside before: a rejected step keeps the old position and
an accepted step is explicitly clamped to the stage bounds. -/
theorem apply_pyoro_step_x_mem (d : ℤ) (g : Game)
    (h1 : 1 ≤ g.pyoro.x) (h2 : g.pyoro.x ≤ 19) :
    1 ≤ (apply_pyoro_step d g).pyoro.x ∧ (apply_pyoro_step d g).pyoro.x ≤ 19 := by
  rw [apply_pyoro_step_eq]
  split_ifs with hh
  · exact ⟨h1, h2⟩
  · dsimp only
    unfold stepNX
    dsimp only
    split_ifs with hlo hhi
    · exact ⟨by norm_num [PYORO_SIZE], by norm_num [PYORO_SIZE, GAME_WIDTH]⟩
    · exact ⟨by norm_num [PYORO_SIZE, GAME_WIDTH], by norm_num [PYORO_SIZE, GAME_WIDTH]⟩
    · push_neg at hlo hhi
      have e1 : PYORO_SIZE / 2 = (1 : ℚ) := by decide
      have e2 : (GAME_WIDTH : ℚ) - PYORO_SIZE / 2 = 19 := by decide
      exact ⟨e1 ▸ hlo, e2 ▸ hhi⟩

@[simp] theorem death_phase_pyoro (dt : ℚ) (s : Sys) :
    (death_phase dt s).game.pyoro = s.game.pyoro := by
  unfold death_phase
  dsimp only
  split_ifs <;> rfl

/-- One tick keeps the x position inside `[1, 19]`. -/
theorem update_game_pyoro_x_bounds (delta : ℚ) (o : SpawnRand) (s : Sys)
    (h1 : 1 ≤ s.game.pyoro.x) (h2 : s.game.pyoro.x ≤ 19) :
    1 ≤ (update_game delta o s).game.pyoro.x ∧
      (update_game delta o s).game.pyoro.x ≤ 19 := by
  unfold update_game
  split_ifs with hstop hdead
  · exact ⟨h1, h2⟩
  · rw [death_phase_pyoro]
    exact ⟨h1, h2⟩
  · unfold tick_main
    dsimp only
    split_ifs with ht hq hc
    all_goals dsimp only
    all_goals simp only [spawn_phase_pyoro, update_angel_pyoro, update_beans_pyoro_x,
      update_tongue_pyoro_x]
    · exact ⟨h1, h2⟩
    · exact apply_pyoro_step_x_mem _ _ h1 h2
    · exact apply_pyoro_step_x_mem _ _ h1 h2
    · exact ⟨h1, h2⟩

theorem press_select_pyoro_x (s : Sys) :
    (press_select s).game.pyoro.x = s.game.pyoro.x ∨
    (press_select s).game.pyoro.x = (GAME_WIDTH : ℚ) / 2 := by
  unfold press_select reset_game init_game
  dsimp only
  split_ifs <;> first | (left; rfl) | (right; rfl)

theorem dir_press_pyoro_x (d n : ℤ) (s : Sys) :
    (dir_press d n s).game.pyoro.x = s.game.pyoro.x := by
  unfold dir_press
  dsimp only
  split_ifs <;> rfl

/-- The clamp invariant: every reachable state has the character's x inside
`[1, 19]`. -/
theorem reachable_x_bounds (s : Sys) (h : Reachable s) :
    1 ≤ s.game.pyoro.x ∧ s.game.pyoro.x ≤ 19 := by
  induction h with
  | init => exact ⟨by decide, by decide⟩
  | tick dt o hdt hr ih => exact update_game_pyoro_x_bounds dt o _ ih.1 ih.2
  | select hr ih =>
      rcases press_select_pyoro_x _ with he | he <;> rw [he]
      · exact ih
      · exact ⟨by decide, by decide⟩
  | up hr ih =>
      unfold press_up
      rw [dir_press_pyoro_x]
      exact ih
  | down hr ih =>
      unfold press_down
      rw [dir_press_pyoro_x]
      exact ih
  | up_repeat hr ih =>
      unfold press_up_repeat
      rw [dir_press_pyoro_x]
      exact ih
  | down_repeat hr ih =>
      unfold press_down_repeat
      rw [dir_press_pyoro_x]
      exact ih

/-- C7: in every reachable state the character's x position lies within
`[PYORO_SIZE/2, GAME_WIDTH - PYORO_SIZE/2]`, these bounds are `1` and `19`
for the 20-unit grid, and applying any further queued step keeps the
position within the same bounds. -/
theorem C7_step_clamp (s : Sys) (h : Reachable s) :
    (PYORO_SIZE / 2 ≤ s.game.pyoro.x ∧
      s.game.pyoro.x ≤ (GAME_WIDTH : ℚ) - PYORO_SIZE / 2) ∧
    (PYORO_SIZE / 2 = (1 : ℚ) ∧ (GAME_WIDTH : ℚ) - PYORO_SIZE / 2 = 19) ∧
    ∀ d : ℤ, PYORO_SIZE / 2 ≤ (apply_pyoro_step d s.game).pyoro.x ∧
      (apply_pyoro_step d s.game).pyoro.x ≤ (GAME_WIDTH : ℚ) - PYORO_SIZE / 2 := by
  obtain ⟨h1, h2⟩ := reachable_x_bounds s h
  have e1 : PYORO_SIZE / 2 = (1 : ℚ) := by decide
  have e2 : (GAME_WIDTH : ℚ) - PYORO_SIZE / 2 = 19 := by decide
  refine ⟨⟨by rw [e1]; exact h1, by rw [e2]; exact h2⟩, ⟨e1, e2⟩, fun d => ?_⟩
  obtain ⟨b1, b2⟩ := apply_pyoro_step_x_mem d s.game h1 h2
  exact ⟨by rw [e1]; exact b1, by rw [e2]; exact b2⟩

theorem C7_step_clamp_witness :
    (PYORO_SIZE / 2 ≤ initSys.game.pyoro.x ∧
      initSys.game.pyoro.x ≤ (GAME_WIDTH : ℚ) - PYORO_SIZE / 2) ∧
    (PYORO_SIZE / 2 ≤ (apply_pyoro_step 1 initSys.game).pyoro.x ∧
      (apply_pyoro_step 1 initSys.game).pyoro.x ≤ (GAME_WIDTH : ℚ) - PYORO_SIZE / 2) :=
  ⟨(C7_step_clamp initSys Reachable.init).1,
   (C7_step_clamp initSys Reachable.init).2.2 1⟩

/-- The bean loop skips a caught bean entirely: its iteration changes
nothing of the game state before the loop continues. -/
theorem update_beans_list_caught_skip (dt : ℚ) (l : List ℕ) (g : Game) (i : ℕ)
    (hcaught : (getA g.beans i defBean).caught = true) :
    update_beans_list dt (i :: l) g = update_beans_list dt l g := by
  rw [update_beans_list.eq_def]
  dsimp only
  rw [if_neg (by simp [hcaught])]

/-- Slaving moves the first active caught bean exactly to the tongue tip,
touching nothing else of it. -/
theorem slave_bean_getA (tx ty : ℚ) (bs : List Bean) (i : ℕ)
    (h : firstCaughtIdx bs = some i) :
    getA (slave_bean tx ty bs) i defBean =
      { getA bs i defBean with x := tx, y := ty } := by
  unfold slave_bean
  rw [h]
  exact getD_set_self _ _ _ _ (findIdxA_spec caughtActive bs i defBean h).1

/-- Retraction completion deactivates the caught bean. -/
theorem complete_catch_deactivates (ty : ℚ) (g : Game) (i : ℕ)
    (h : firstCaughtIdx g.beans = some i) :
    (getA (complete_catch ty g).beans i defBean).active = false := by
  have hlen : i < g.beans.length := (findIdxA_spec caughtActive g.beans i defBean h).1
  unfold complete_catch
  rw [h]
  dsimp only
  split_ifs with h1 h2
  · rw [getD_set_self _ _ _ _ (by simpa using hlen)]
  · rw [getD_set_self _ _ _ _ hlen]
  · rw [getD_set_self _ _ _ _ hlen]

/-- A retracting tick that does not yet reach the mouth: the tip moves
back by `TONGUE_SPEED * 2 * dt` and the caught bean is slaved to the new
tip position, all its flags untouched. -/
theorem tongue_retract_slave (dt : ℚ) (g : Game) (i : ℕ)
    (hcb : g.pyoro.tongue.caught_bean = true)
    (hfound : firstCaughtIdx g.beans = some i)
    (hlt : g.pyoro.tongue.y + TONGUE_SPEED * 2 * dt < g.pyoro.y) :
    (tongue_retract dt g).pyoro.tongue.x =
      g.pyoro.tongue.x - (g.pyoro.tongue.direction : ℚ) * (TONGUE_SPEED * 2 * dt) ∧
    (tongue_retract dt g).pyoro.tongue.y = g.pyoro.tongue.y + TONGUE_SPEED * 2 * dt ∧
    getA (tongue_retract dt g).beans i defBean =
      { getA g.beans i defBean with
        x := g.pyoro.tongue.x - (g.pyoro.tongue.direction : ℚ) * (TONGUE_SPEED * 2 * dt),
        y := g.pyoro.tongue.y + TONGUE_SPEED * 2 * dt } := by
  unfold tongue_retract
  simp only []
  rw [if_neg (not_le.mpr hlt), if_pos hcb]
  refine ⟨rfl, rfl, ?_⟩
  dsimp only
  exact slave_bean_getA _ _ _ i hfound

/-- A retracting tick that reaches the mouth deactivates the tongue and
the caught bean. -/
theorem tongue_retract_complete_off (dt : ℚ) (g : Game) (i : ℕ)
    (hcb : g.pyoro.tongue.caught_bean = true)
    (hfound : firstCaughtIdx g.beans = some i)
    (hdone : g.pyoro.tongue.y + TONGUE_SPEED * 2 * dt ≥ g.pyoro.y) :
    (tongue_retract dt g).pyoro.tongue.active = false ∧
    (getA (tongue_retract dt g).beans i defBean).active = false := by
  unfold tongue_retract
  simp only []
  rw [if_pos hdone, if_pos hcb, if_pos hcb]
  refine ⟨rfl, ?_⟩
  dsimp only
  refine complete_catch_deactivates _ _ i ?_
  dsimp only
  rw [firstCaughtIdx_slave]
  exact hfound

/-- C9: the per-tick bean loop skips a caught bean entirely — it is not
moved by gravity, not tested for collision with the character, does not
destroy a block and does not deactivate at the ground line, the whole
state being untouched by its iteration; during a retracting tick the
caught bean is instead slaved to the tongue tip, and it is deactivated
exactly when the retraction completes (not before, the slaved record
keeping all its flags). -/
theorem C9_caught_bean (dt : ℚ) (g : Game) (i : ℕ) :
    ((getA g.beans i defBean).caught = true →
      ∀ l : List ℕ, update_beans_list dt (i :: l) g = update_beans_list dt l g) ∧
    (g.pyoro.tongue.active = true → g.pyoro.tongue.going_back = true →
      g.pyoro.tongue.caught_bean = true → firstCaughtIdx g.beans = some i →
      (g.pyoro.tongue.y + TONGUE_SPEED * 2 * dt < g.pyoro.y →
        (update_tongue dt g).pyoro.tongue.x =
          g.pyoro.tongue.x - (g.pyoro.tongue.direction : ℚ) * (TONGUE_SPEED * 2 * dt) ∧
        (update_tongue dt g).pyoro.tongue.y =
          g.pyoro.tongue.y + TONGUE_SPEED * 2 * dt ∧
        getA (update_tongue dt g).beans i defBean =
          { getA g.beans i defBean with
            x := g.pyoro.tongue.x -
              (g.pyoro.tongue.direction : ℚ) * (TONGUE_SPEED * 2 * dt),
            y := g.pyoro.tongue.y + TONGUE_SPEED * 2 * dt }) ∧
      (g.pyoro.tongue.y + TONGUE_SPEED * 2 * dt ≥ g.pyoro.y →
        (update_tongue dt g).pyoro.tongue.active = false ∧
        (getA (update_tongue dt g).beans i defBean).active = false)) := by
  constructor
  · intro hcaught l
    exact update_beans_list_caught_skip dt l g i hcaught
  · intro hact hback hcb hfound
    rw [update_tongue_retracting dt g hact hback]
    exact ⟨fun hlt => tongue_retract_slave dt g i hcb hfound hlt,
           fun hdone => tongue_retract_complete_off dt g i hcb hfound hdone⟩

theorem C9_caught_bean_witness :
    update_beans_list 1 [0, 1, 2, 3, 4] c9s.game =
      update_beans_list 1 [1, 2, 3, 4] c9s.game ∧
    getA (update_tongue (1/100) c9s.game).beans 0 defBean =
      { getA c9s.game.beans 0 defBean with
        x := c9s.game.pyoro.tongue.x -
          (c9s.game.pyoro.tongue.direction : ℚ) * (TONGUE_SPEED * 2 * (1/100)),
        y := c9s.game.pyoro.tongue.y + TONGUE_SPEED * 2 * (1/100) } ∧
    (getA (update_tongue 1 c9s.game).beans 0 defBean).active = false :=
  ⟨(C9_caught_bean 1 c9s.game 0).1 (by decide) [1, 2, 3, 4],
   (((C9_caught_bean (1/100) c9s.game 0).2 (by decide) (by decide) (by decide)
      (by decide)).1 (by decide)).2.2,
   (((C9_caught_bean 1 c9s.game 0).2 (by decide) (by decide) (by decide)
      (by decide)).2 (by decide)).2⟩

/-- The invariant only reads the per-bean `caughtActive` values and three
tongue flags: any update preserving those preserves it. -/
theorem CaughtInv_of_pointwise (g g' : Game)
    (hb : ∀ i : ℕ, caughtActive (getA g'.beans i defBean) =
      caughtActive (getA g.beans i defBean))
    (ha : g'.pyoro.tongue.active = g.pyoro.tongue.active)
    (hc : g'.pyoro.tongue.caught_bean = g.pyoro.tongue.caught_bean)
    (hg : g'.pyoro.tongue.going_back = g.pyoro.tongue.going_back)
    (hinv : CaughtInv g) : CaughtInv g' := by
  obtain ⟨h1, h2, h3⟩ := hinv
  refine ⟨?_, ?_, ?_⟩
  · intro i j hi hj
    exact h1 i j (by rw [← hb i]; exact hi) (by rw [← hb j]; exact hj)
  · rw [ha, hc]
    constructor
    · rintro ⟨i, hi⟩
      exact h2.mp ⟨i, by rw [← hb i]; exact hi⟩
    · intro hr
      obtain ⟨i, hi⟩ := h2.mpr hr
      exact ⟨i, by rw [hb i]; exact hi⟩
  · rw [ha, hc, hg]
    exact h3

theorem findIdxA_none_getA {α : Type} (p : α → Bool) (l : List α) (d : α)
    (h : findIdxA p l = none) : ∀ i : ℕ, i < l.length → p (getA l i d) = false := by
  induction l with
  | nil => intro i hi; simp at hi
  | cons x xs ih =>
      intro i hi
      by_cases hp : p x = true
      · simp [findIdxA, hp] at h
      · simp [findIdxA, hp] at h
        cases i with
        | zero => simpa using hp
        | succ i =>
            rw [getA_simp_succ]
            exact ih h i (by simpa using hi)

theorem firstCaughtIdx_some_of (bs : List Bean) (k : ℕ)
    (h : caughtActive (getA bs k defBean) = true) :
    ∃ j : ℕ, firstCaughtIdx bs = some j := by
  cases hf : firstCaughtIdx bs with
  | some j => exact ⟨j, rfl⟩
  | none =>
      by_cases hk : k < bs.length
      · have hfalse := findIdxA_none_getA caughtActive bs defBean hf k hk
        rw [h] at hfalse
        exact absurd hfalse (by simp)
      · rw [getD_oob bs k defBean (by omega)] at h
        exact absurd h (by decide)

/-- Spawning claims an inactive slot with an uncaught bean: the per-bean
`caughtActive` values are untouched. -/
theorem spawn_bean_caughtActive (o : SpawnRand) (g : Game) (i : ℕ) :
    caughtActive (getA (spawn_bean o g).beans i defBean) =
      caughtActive (getA g.beans i defBean) := by
  unfold spawn_bean
  cases hf : findIdxA (fun b => !b.active) g.beans with
  | none => rfl
  | some k =>
      dsimp only
      rw [getD_set_cases]
      split_ifs with hc hty
      · obtain ⟨rfl, hlen⟩ := hc
        have hk := (findIdxA_spec _ _ _ defBean hf).2
        simp only [Bool.not_eq_true'] at hk
        simp [caughtActive, hk]
      · obtain ⟨rfl, hlen⟩ := hc
        have hk := (findIdxA_spec _ _ _ defBean hf).2
        simp only [Bool.not_eq_true'] at hk
        simp [caughtActive, hk]
      · rfl

theorem spawn_phase_caughtActive (dt : ℚ) (o : SpawnRand) (g : Game) (i : ℕ) :
    caughtActive (getA (spawn_phase dt o g).beans i defBean) =
      caughtActive (getA g.beans i defBean) := by
  unfold spawn_phase
  simp only []
  split_ifs with hc
  · dsimp only
    exact spawn_bean_caughtActive o g i
  · rfl

/-- The bean loop only rewrites uncaught beans (their position, or their
position and active flag), so every bean's `caughtActive` value survives
the pass. -/
theorem update_beans_list_caughtActive (dt : ℚ) (l : List ℕ) :
    ∀ (g : Game) (i : ℕ),
      caughtActive (getA (update_beans_list dt l g).beans i defBean) =
        caughtActive (getA g.beans i defBean) := by
  induction l with
  | nil => intro g i; rfl
  | cons j rest ih =>
      intro g i
      rw [update_beans_list.eq_def]
      dsimp only
      split_ifs with h1 h2 h3 h4
      all_goals
        try (have hcaught : (getA g.beans j defBean).caught = false := by
              simp only [Bool.and_eq_true, Bool.not_eq_true'] at h1
              exact h1.2)
      · dsimp only
        rw [getD_set_cases]
        split_ifs with hc
        · obtain ⟨rfl, _⟩ := hc
          simp [caughtActive, hcaught]
        · rfl
      · rw [ih]
        dsimp only
        rw [getD_set_cases]
        split_ifs with hc
        · obtain ⟨rfl, _⟩ := hc
          simp [caughtActive, hcaught]
        · rfl
      · rw [ih]
        dsimp only
        rw [getD_set_cases]
        split_ifs with hc
        · obtain ⟨rfl, _⟩ := hc
          simp [caughtActive, hcaught]
        · rfl
      · rw [ih]
        dsimp only
        rw [getD_set_cases]
        split_ifs with hc
        · obtain ⟨rfl, _⟩ := hc
          simp [caughtActive, hcaught]
        · rfl
      · exact ih g i

theorem update_beans_caughtActive (dt : ℚ) (g : Game) (i : ℕ) :
    caughtActive (getA (update_beans dt g).beans i defBean) =
      caughtActive (getA g.beans i defBean) :=
  update_beans_list_caughtActive dt [0, 1, 2, 3, 4] g i

theorem slave_bean_caughtActive (tx ty : ℚ) (bs : List Bean) (i : ℕ) :
    caughtActive (getA (slave_bean tx ty bs) i defBean) =
      caughtActive (getA bs i defBean) := by
  unfold caughtActive
  rw [(slave_bean_flags tx ty bs i).1, (slave_bean_flags tx ty bs i).2.1]

/-- A state with no active caught bean and an inactive tongue satisfies the
coupling invariant. -/
theorem CaughtInv_no_caught_tongue_off (G : Game)
    (hball : ∀ i : ℕ, caughtActive (getA G.beans i defBean) = false)
    (hoff : G.pyoro.tongue.active = false) : CaughtInv G := by
  refine ⟨?_, ?_, ?_⟩
  · intro i j hi _
    rw [hball i] at hi
    exact absurd hi (by simp)
  · constructor
    · rintro ⟨i, hi⟩
      rw [hball i] at hi
      exact absurd hi (by simp)
    · rintro ⟨ha, -⟩
      rw [hoff] at ha
      exact absurd ha (by simp)
  · rintro ⟨ha, -⟩
    rw [hoff] at ha
    exact absurd ha (by simp)

/-- Forcing `going_back` on cannot break the coupling invariant. -/
theorem CaughtInv_force_back (g : Game) (h : CaughtInv g) :
    CaughtInv { g with pyoro := { g.pyoro with tongue :=
      { g.pyoro.tongue with going_back := true } } } := by
  obtain ⟨h1, h2, h3⟩ := h
  exact ⟨h1, h2, fun _ => rfl⟩

/-- The bean list after retraction completion, as a function of the first
caught index. -/
theorem complete_catch_getA2 (ty : ℚ) (G : Game) (i : ℕ) :
    getA (complete_catch ty G).beans i defBean =
      match firstCaughtIdx G.beans with
      | none => getA G.beans i defBean
      | some k =>
          if k = i ∧ k < G.beans.length
          then { getA G.beans k defBean with active := false }
          else getA G.beans i defBean := by
  unfold complete_catch
  cases hf : firstCaughtIdx G.beans with
  | none => rfl
  | some k =>
      dsimp only
      simp only [apply_ite Game.beans, spawn_angel_beans, ite_self]
      rw [getD_set_cases]

/-- The extending tongue preserves the coupling invariant. -/
theorem tongue_extend_CaughtInv (dt : ℚ) (g : Game)
    (hact : g.pyoro.tongue.active = true)
    (hnb : g.pyoro.tongue.going_back = false)
    (hinv : CaughtInv g) :
    CaughtInv (tongue_extend dt g) := by
  obtain ⟨h1, h2, h3⟩ := hinv
  have hcb : g.pyoro.tongue.caught_bean = false := by
    by_contra hc
    rw [Bool.not_eq_false] at hc
    rw [h3 ⟨hact, hc⟩] at hnb
    exact absurd hnb (by simp)
  have hnone : ∀ i : ℕ, caughtActive (getA g.beans i defBean) = false := by
    intro i
    by_contra hcon
    rw [Bool.not_eq_false] at hcon
    have hx := (h2.mp ⟨i, hcon⟩).2
    rw [hcb] at hx
    exact absurd hx (by simp)
  unfold tongue_extend
  simp only []
  split_ifs with hb
  · refine CaughtInv_force_back _ ?_
    split
    · rename_i k hf
      have hklen : k < g.beans.length := (findIdxA_spec _ _ _ defBean hf).1
      have hbact : (getA g.beans k defBean).active = true := by
        have hp := (findIdxA_spec _ _ _ defBean hf).2
        unfold catchPred at hp
        simp only [Bool.and_eq_true] at hp
        exact hp.1.1
      refine ⟨?_, ?_, fun _ => rfl⟩
      · intro i j hi hj
        dsimp only at hi hj
        rw [getD_set_cases] at hi hj
        split_ifs at hi with hc1
        · split_ifs at hj with hc2
          · omega
          · rw [hnone j] at hj
            exact absurd hj (by simp)
        · rw [hnone i] at hi
          exact absurd hi (by simp)
      · constructor
        · intro _
          exact ⟨hact, rfl⟩
        · intro _
          refine ⟨k, ?_⟩
          dsimp only
          rw [getD_set_self _ _ _ _ hklen]
          simp [caughtActive, hbact]
    · rename_i hf
      exact CaughtInv_of_pointwise g _ (fun i => rfl) rfl rfl rfl ⟨h1, h2, h3⟩
  · split
    · rename_i k hf
      have hklen : k < g.beans.length := (findIdxA_spec _ _ _ defBean hf).1
      have hbact : (getA g.beans k defBean).active = true := by
        have hp := (findIdxA_spec _ _ _ defBean hf).2
        unfold catchPred at hp
        simp only [Bool.and_eq_true] at hp
        exact hp.1.1
      refine ⟨?_, ?_, fun _ => rfl⟩
      · intro i j hi hj
        dsimp only at hi hj
        rw [getD_set_cases] at hi hj
        split_ifs at hi with hc1
        · split_ifs at hj with hc2
          · omega
          · rw [hnone j] at hj
            exact absurd hj (by simp)
        · rw [hnone i] at hi
          exact absurd hi (by simp)
      · constructor
        · intro _
          exact ⟨hact, rfl⟩
        · intro _
          refine ⟨k, ?_⟩
          dsimp only
          rw [getD_set_self _ _ _ _ hklen]
          simp [caughtActive, hbact]
    · rename_i hf
      exact CaughtInv_of_pointwise g _ (fun i => rfl) rfl rfl rfl ⟨h1, h2, h3⟩

/-- The retracting tongue preserves the coupling invariant. -/
theorem tongue_retract_CaughtInv (dt : ℚ) (g : Game)
    (hact : g.pyoro.tongue.active = true)
    (hinv : CaughtInv g) :
    CaughtInv (tongue_retract dt g) := by
  obtain ⟨h1, h2, h3⟩ := hinv
  unfold tongue_retract
  simp only []
  split_ifs with hdone hcb1 hcb2
  · -- completion with a caught bean: the bean is removed, the tongue shuts
    obtain ⟨i0, hi0⟩ := h2.mpr ⟨hact, hcb1⟩
    obtain ⟨k, hk⟩ := firstCaughtIdx_some_of g.beans i0 hi0
    have hkact : caughtActive (getA g.beans k defBean) = true :=
      (findIdxA_spec caughtActive g.beans k defBean hk).2
    have hklen : k < g.beans.length :=
      (findIdxA_spec caughtActive g.beans k defBean hk).1
    refine CaughtInv_no_caught_tongue_off _ ?_ rfl
    intro i
    dsimp only
    rw [complete_catch_getA2]
    dsimp only
    rw [firstCaughtIdx_slave, hk]
    dsimp only
    split_ifs with hc
    · simp [caughtActive]
    · rw [slave_bean_caughtActive]
      by_contra hcon
      rw [Bool.not_eq_false] at hcon
      have hik := h1 i k hcon hkact
      refine hc ⟨hik.symm, ?_⟩
      rw [slave_bean_length]
      exact hklen
  · -- completion with no caught bean: nothing was caught, the tongue shuts
    have hball : ∀ i : ℕ, caughtActive (getA g.beans i defBean) = false := by
      intro i
      by_contra hcon
      rw [Bool.not_eq_false] at hcon
      have hx := (h2.mp ⟨i, hcon⟩).2
      simp only [Bool.not_eq_true] at hcb1
      rw [hcb1] at hx
      exact absurd hx (by simp)
    exact CaughtInv_no_caught_tongue_off _ hball rfl
  · -- mid-retraction with a caught bean: slaving keeps every flag
    exact CaughtInv_of_pointwise g _
      (fun i => slave_bean_caughtActive _ _ _ i) rfl rfl rfl ⟨h1, h2, h3⟩
  · -- mid-retraction without a caught bean: only the tip moves
    exact CaughtInv_of_pointwise g _ (fun i => rfl) rfl rfl rfl ⟨h1, h2, h3⟩

theorem update_tongue_CaughtInv (dt : ℚ) (g : Game) (hinv : CaughtInv g) :
    CaughtInv (update_tongue dt g) := by
  unfold update_tongue
  split_ifs with hf hgb
  · exact hinv
  · exact tongue_retract_CaughtInv dt g (by simpa using hf) hinv
  · exact tongue_extend_CaughtInv dt g (by simpa using hf) (by simpa using hgb) hinv

theorem getA_replicate_self {α : Type} (n : ℕ) (d : α) (i : ℕ) :
    getA (List.replicate n d) i d = d := by
  induction n generalizing i with
  | zero => rfl
  | succ n ih =>
      cases i with
      | zero => rfl
      | succ i => exact ih i

theorem map_inactive_caughtActive (bs : List Bean) (i : ℕ) :
    caughtActive (getA (bs.map fun b => { b with active := false, type := BeanType.green })
      i defBean) = false := by
  induction bs generalizing i with
  | nil => rfl
  | cons x xs ih =>
      cases i with
      | zero => rfl
      | succ i => exact ih i

/-- One tick preserves the coupling invariant. -/
theorem update_game_CaughtInv (delta : ℚ) (o : SpawnRand) (s : Sys)
    (hinv : CaughtInv s.game) : CaughtInv (update_game delta o s).game := by
  unfold update_game
  split_ifs with h1 h2
  · exact hinv
  · unfold death_phase
    dsimp only
    split_ifs <;> exact CaughtInv_of_pointwise s.game _ (fun i => rfl) rfl rfl rfl hinv
  · unfold tick_main
    dsimp only
    split_ifs with ht hq hc
    all_goals dsimp only
    all_goals
      refine CaughtInv_of_pointwise _ _
        (fun i => by rw [spawn_phase_caughtActive, update_angel_beans,
          update_beans_caughtActive])
        (by rw [spawn_phase_pyoro, update_angel_pyoro, update_beans_pyoro_tongue])
        (by rw [spawn_phase_pyoro, update_angel_pyoro, update_beans_pyoro_tongue])
        (by rw [spawn_phase_pyoro, update_angel_pyoro, update_beans_pyoro_tongue])
        (update_tongue_CaughtInv _ _ ?_)
    · exact CaughtInv_of_pointwise s.game _ (fun i => rfl) rfl rfl rfl hinv
    · exact CaughtInv_of_pointwise s.game _
        (fun i => by rw [apply_pyoro_step_beans])
        (by rw [apply_pyoro_step_pyoro_tongue])
        (by rw [apply_pyoro_step_pyoro_tongue])
        (by rw [apply_pyoro_step_pyoro_tongue]) hinv
    · exact CaughtInv_of_pointwise s.game _
        (fun i => by rw [apply_pyoro_step_beans])
        (by rw [apply_pyoro_step_pyoro_tongue])
        (by rw [apply_pyoro_step_pyoro_tongue])
        (by rw [apply_pyoro_step_pyoro_tongue]) hinv
    · exact CaughtInv_of_pointwise s.game _ (fun i => rfl) rfl rfl rfl hinv

theorem press_select_CaughtInv (s : Sys) (hinv : CaughtInv s.game) :
    CaughtInv (press_select s).game := by
  unfold press_select reset_game init_game
  dsimp only
  split_ifs with hmenu hover hplay htongue
  · refine CaughtInv_no_caught_tongue_off _ ?_ rfl
    intro i
    exact map_inactive_caughtActive s.game.beans i
  · exact CaughtInv_of_pointwise s.game _ (fun i => rfl) rfl rfl rfl hinv
  · obtain ⟨h1, h2, h3⟩ := hinv
    refine ⟨h1, ?_, ?_⟩
    · constructor
      · rintro ⟨i, hi⟩
        have hx := (h2.mp ⟨i, hi⟩).1
        rw [htongue] at hx
        exact absurd hx (by simp)
      · rintro ⟨-, hcb⟩
        exact absurd hcb (by simp)
    · rintro ⟨-, hcb⟩
      exact absurd hcb (by simp)
  · exact hinv
  · exact hinv

theorem dir_press_CaughtInv (d n : ℤ) (s : Sys) (hinv : CaughtInv s.game) :
    CaughtInv (dir_press d n s).game := by
  unfold dir_press
  dsimp only
  split_ifs <;> exact hinv

/-- Every reachable state satisfies the caught-bean coupling invariant. -/
theorem reachable_CaughtInv (s : Sys) (h : Reachable s) : CaughtInv s.game := by
  induction h with
  | init =>
      refine CaughtInv_no_caught_tongue_off _ ?_ rfl
      intro i
      have hr : getA initSys.game.beans i defBean = defBean :=
        getA_replicate_self 5 defBean i
      rw [hr]
      decide
  | tick dt o hdt hr ih => exact update_game_CaughtInv dt o _ ih
  | select hr ih => exact press_select_CaughtInv _ ih
  | up hr ih => exact dir_press_CaughtInv (-1) 1 _ ih
  | down hr ih => exact dir_press_CaughtInv 1 1 _ ih
  | up_repeat hr ih => exact dir_press_CaughtInv (-1) 4 _ ih
  | down_repeat hr ih => exact dir_press_CaughtInv 1 4 _ ih

/-- C10: in every reachable state at most one active bean is caught; an
active caught bean exists exactly when the tongue is active with its
`caught_bean` flag set, and then the tongue is retracting
(`going_back = true`). -/
theorem C10_caught_coupling (s : Sys) (h : Reachable s) :
    (∀ i j : ℕ, caughtActive (getA s.game.beans i defBean) = true →
      caughtActive (getA s.game.beans j defBean) = true → i = j) ∧
    ((∃ i : ℕ, caughtActive (getA s.game.beans i defBean) = true) ↔
      (s.game.pyoro.tongue.active = true ∧ s.game.pyoro.tongue.caught_bean = true)) ∧
    ((s.game.pyoro.tongue.active = true ∧ s.game.pyoro.tongue.caught_bean = true) →
      s.game.pyoro.tongue.going_back = true) :=
  reachable_CaughtInv s h

theorem C10_caught_coupling_witness :
    initSys.game.pyoro.tongue.active = false ∧
    caughtActive (getA initSys.game.beans 0 defBean) = false := by
  refine ⟨by decide, ?_⟩
  by_contra hc
  rw [Bool.not_eq_false] at hc
  have h := ((C10_caught_coupling initSys Reachable.init).2.1).mp ⟨0, hc⟩
  exact absurd h.1 (by decide)

theorem AngelInv_of_eq (g g' : Game) (hb : g'.blocks = g.blocks)
    (ha : g'.angel = g.angel) (hinv : AngelInv g) : AngelInv g' := by
  unfold AngelInv at hinv ⊢
  rw [hb, ha]
  exact hinv

theorem spawn_angel_AngelInv (bi : ℤ) (g : Game) (hinv : AngelInv g) :
    AngelInv (spawn_angel bi g) := by
  unfold spawn_angel
  split_ifs with h1 h2 h3
  · exact hinv
  · exact hinv
  · exact hinv
  · obtain ⟨hlen, -⟩ := hinv
    refine ⟨by simpa using hlen, ?_⟩
    intro _ _
    push_neg at h1
    refine ⟨h1.1, h1.2, ?_⟩
    rw [getD_set_self]
    · rw [hlen]
      have h20 : bi < 20 := h1.2
      omega

theorem complete_catch_AngelInv (ty : ℚ) (g : Game) (hinv : AngelInv g) :
    AngelInv (complete_catch ty g) := by
  unfold complete_catch
  cases hf : firstCaughtIdx g.beans with
  | none => exact hinv
  | some k =>
      dsimp only
      split_ifs with hp hd
      · exact spawn_angel_AngelInv _ _ hinv
      · exact hinv
      · exact hinv

theorem tongue_retract_AngelInv (dt : ℚ) (g : Game) (hinv : AngelInv g) :
    AngelInv (tongue_retract dt g) := by
  unfold tongue_retract
  simp only []
  split_ifs with hdone hcb1 hcb2
  · exact complete_catch_AngelInv _ _ hinv
  · exact hinv
  · exact hinv
  · exact hinv

theorem tongue_extend_AngelInv (dt : ℚ) (g : Game) (hinv : AngelInv g) :
    AngelInv (tongue_extend dt g) := by
  unfold tongue_extend
  simp only []
  split_ifs with hb
  · split
    · exact hinv
    · exact hinv
  · split
    · exact hinv
    · exact hinv

theorem update_tongue_AngelInv (dt : ℚ) (g : Game) (hinv : AngelInv g) :
    AngelInv (update_tongue dt g) := by
  unfold update_tongue
  split_ifs with hf hgb
  · exact hinv
  · exact tongue_retract_AngelInv dt g hinv
  · exact tongue_extend_AngelInv dt g hinv

theorem update_beans_AngelInv (dt : ℚ) (g : Game) (hinv : AngelInv g) :
    AngelInv (update_beans dt g) := by
  obtain ⟨hlen, himp⟩ := hinv
  refine ⟨by rw [update_beans_blocks_length]; exact hlen, ?_⟩
  intro ha hup
  rw [update_beans_angel] at ha hup
  rw [update_beans_angel, update_beans_blocks_repair]
  exact himp ha hup

theorem update_angel_AngelInv (dt : ℚ) (g : Game) (hinv : AngelInv g) :
    AngelInv (update_angel dt g) := by
  unfold update_angel
  simp only []
  split_ifs with h1 h2 h3 h4 h5
  · exact hinv
  · obtain ⟨hlen, -⟩ := hinv
    refine ⟨by simpa using hlen, ?_⟩
    intro _ hup
    exact absurd hup (by simp)
  · obtain ⟨hlen, -⟩ := hinv
    refine ⟨hlen, ?_⟩
    intro _ hup
    exact absurd hup (by simp)
  · exact hinv
  · obtain ⟨hlen, -⟩ := hinv
    refine ⟨hlen, ?_⟩
    intro ha _
    exact absurd ha (by simp)
  · exact hinv

theorem update_game_AngelInv (delta : ℚ) (o : SpawnRand) (s : Sys)
    (hinv : AngelInv s.game) : AngelInv (update_game delta o s).game := by
  unfold update_game
  split_ifs with h1 h2
  · exact hinv
  · unfold death_phase
    dsimp only
    split_ifs <;> exact hinv
  · unfold tick_main
    dsimp only
    split_ifs with ht hq hc
    all_goals dsimp only
    all_goals
      refine AngelInv_of_eq _ _ (spawn_phase_blocks _ _ _) (spawn_phase_angel _ _ _)
        (update_angel_AngelInv _ _ (update_beans_AngelInv _ _
          (update_tongue_AngelInv _ _ ?_)))
    · exact hinv
    · exact AngelInv_of_eq _ _ (apply_pyoro_step_blocks _ _) (apply_pyoro_step_angel _ _) hinv
    · exact AngelInv_of_eq _ _ (apply_pyoro_step_blocks _ _) (apply_pyoro_step_angel _ _) hinv
    · exact hinv

theorem press_select_AngelInv (s : Sys) (hinv : AngelInv s.game) :
    AngelInv (press_select s).game := by
  unfold press_select reset_game init_game
  dsimp only
  split_ifs with hmenu hover hplay htongue
  · refine ⟨by simp, ?_⟩
    intro h
    exact absurd h (by simp)
  · exact hinv
  · exact hinv
  · exact hinv
  · exact hinv

theorem dir_press_AngelInv (d n : ℤ) (s : Sys) (hinv : AngelInv s.game) :
    AngelInv (dir_press d n s).game := by
  unfold dir_press
  dsimp only
  split_ifs <;> exact hinv

/-- Every reachable state satisfies the descending-angel invariant. -/
theorem reachable_AngelInv (s : Sys) (h : Reachable s) : AngelInv s.game := by
  induction h with
  | init => exact ⟨by decide, fun h _ => absurd h (by decide)⟩
  | tick dt o hdt hr ih => exact update_game_AngelInv dt o _ ih
  | select hr ih => exact press_select_AngelInv _ ih
  | up hr ih => exact dir_press_AngelInv (-1) 1 _ ih
  | down hr ih => exact dir_press_AngelInv 1 1 _ ih
  | up_repeat hr ih => exact dir_press_AngelInv (-1) 4 _ ih
  | down_repeat hr ih => exact dir_press_AngelInv 1 4 _ ih

theorem c3s7_reachable : Reachable c3s7 :=
  Reachable.tick (1/10) ⟨0, 0, 0⟩ (by norm_num)
    (Reachable.tick (1/100) ⟨0, 0, 0⟩ (by norm_num)
      (Reachable.select
        (Reachable.tick (63/10) ⟨0, 50, 4⟩ (by norm_num)
          (Reachable.tick 10 ⟨13, 50, 0⟩ (by norm_num)
            (Reachable.tick 2 ⟨0, 50, 4⟩ (by norm_num)
              (Reachable.select Reachable.init))))))

theorem c3s8_reachable : Reachable c3s8 :=
  Reachable.tick (1/2) ⟨0, 0, 0⟩ (by norm_num) c3s7_reachable

/-- C3 (amended): in every reachable state, while the single angel is
active and still descending (`going_up = false`), its target block index
is an in-range column whose block has `is_repairing` set.  (Once the
angel has landed and ascends, the flag is already cleared although the
angel is still active — see the counterexample.) -/
theorem C3_angel_repairing (s : Sys) (h : Reachable s)
    (hact : s.game.angel.active = true)
    (hdesc : s.game.angel.going_up = false) :
    0 ≤ s.game.angel.target_block_index ∧
    s.game.angel.target_block_index < GAME_WIDTH ∧
    (getA s.game.blocks s.game.angel.target_block_index.toNat defBlock).is_repairing
      = true :=
  (reachable_AngelInv s h).2 hact hdesc

theorem C3_angel_repairing_witness :
    0 ≤ c3s7.game.angel.target_block_index ∧
    c3s7.game.angel.target_block_index < GAME_WIDTH ∧
    (getA c3s7.game.blocks c3s7.game.angel.target_block_index.toNat defBlock).is_repairing
      = true :=
  C3_angel_repairing c3s7 c3s7_reachable (by decide) (by decide)

/-- C3 as stated is false: in the reachable state `c3s8` the angel has
landed and is ascending, so it is still active while the target block's
`is_repairing` flag is already cleared. -/
theorem C3_angel_repairing_counterexample :
    Reachable c3s8 ∧
    c3s8.game.angel.active = true ∧
    (getA c3s8.game.blocks c3s8.game.angel.target_block_index.toNat defBlock).is_repairing
      = false :=
  ⟨c3s8_reachable, by decide, by decide⟩

end BirdBeans
